import Mathlib

/-!
Verification of the organization access-control and audit engine
(`convex-organizations`).  The data model and every operation below are
shallow embeddings of the TypeScript source: the Convex document store
becomes a record of lists, document ids become `Nat`, `Date.now()` becomes
an explicit `now : Nat` parameter, and each mutation handler becomes a
function `... → DB → Except Err (α × DB)`.  Convex mutations are atomic
transactions: an unhandled throw aborts the transaction and none of its
writes commit.  The embedding reflects this by returning `Except.error`
with no successor state, so an error always leaves the store unchanged.
-/

namespace ConvexOrgs

/-- Organization lifecycle status (`active`, `suspended`, `deleted`). -/
inductive OrgStatus where
  | active
  | suspended
  | deleted
deriving DecidableEq, Repr

/-- Invitation status state machine values. -/
inductive InvStatus where
  | pending
  | accepted
  | declined
  | expired
  | revoked
deriving DecidableEq, Repr

/-- The string form of an invitation status, as interpolated into the
`Invitation is ...` error message. -/
def InvStatus.text : InvStatus → String
  | .pending => "pending"
  | .accepted => "accepted"
  | .declined => "declined"
  | .expired => "expired"
  | .revoked => "revoked"

/-- Impersonation session status (`active`, `expired`, `ended`). -/
inductive ImpStatus where
  | active
  | expired
  | ended
deriving DecidableEq, Repr

/-- A row of the `organizations` table. -/
structure Organization where
  id : Nat
  name : String
  slug : String
  createdBy : String
  status : OrgStatus
  deletedAt : Option Nat
deriving DecidableEq, Repr

/-- A row of the `orgRoles` table. -/
structure Role where
  id : Nat
  orgId : Nat
  name : String
  description : Option String
  permissions : List String
  isSystem : Bool
  sortOrder : Int
deriving DecidableEq, Repr

/-- A row of the `orgMembers` table. -/
structure Member where
  id : Nat
  orgId : Nat
  userId : String
  roleId : Nat
  joinedAt : Nat
  invitedBy : Option String
deriving DecidableEq, Repr

/-- A row of the `invitations` table.  `token` holds the stored one-way
hash of the raw token. -/
structure Invitation where
  id : Nat
  orgId : Nat
  email : Option String
  phone : Option String
  roleId : Nat
  invitedBy : String
  status : InvStatus
  token : String
  expiresAt : Nat
  acceptedBy : Option String
  acceptedAt : Option Nat
deriving DecidableEq, Repr

/-- A row of the `invitationCodes` table (only the fields the purge
routine touches). -/
structure InvitationCode where
  id : Nat
  orgId : Nat
  code : String
deriving DecidableEq, Repr

/-- A row of the `userProfiles` table. -/
structure Profile where
  id : Nat
  userId : String
  email : Option String
  phone : Option String
  displayName : Option String
  activeOrgId : Option Nat
  isBanned : Bool
  isAdmin : Bool
  deletedAt : Option Nat
deriving DecidableEq, Repr

/-- A row of the `userDevices` table. -/
structure Device where
  id : Nat
  userId : String
  sessionId : String
  deviceName : Option String
  deviceType : Option String
  browser : Option String
  os : Option String
  ipAddress : Option String
  lastActiveAt : Nat
  createdAt : Nat
deriving DecidableEq, Repr

/-- A row of the `impersonationSessions` table. -/
structure ImpSession where
  id : Nat
  adminUserId : String
  targetUserId : String
  reason : Option String
  startedAt : Nat
  expiresAt : Nat
  endedAt : Option Nat
  status : ImpStatus
deriving DecidableEq, Repr

/-- A row of the append-only `auditLogs` table. -/
structure AuditEntry where
  orgId : Option Nat
  actorUserId : String
  effectiveUserId : Option String
  action : String
  resourceType : String
  resourceId : Option Nat
  timestamp : Nat
deriving DecidableEq, Repr

/-- The whole document store.  `nextId` models the store's generation of
fresh document ids. -/
structure DB where
  orgs : List Organization
  roles : List Role
  members : List Member
  invitations : List Invitation
  invitationCodes : List InvitationCode
  profiles : List Profile
  devices : List Device
  sessions : List ImpSession
  auditLogs : List AuditEntry
  nextId : Nat
deriving DecidableEq, Repr

/-- Error kinds of the engine (spec section 7); each carries the
human-readable message thrown by the source. -/
inductive Err where
  | notFound (msg : String)
  | authorityViolation (msg : String)
  | permissionDenied (msg : String)
  | lastOwnerViolation (msg : String)
  | duplicateConflict (msg : String)
  | invalidState (msg : String)
  | expired (msg : String)
  | adminImpersonationViolation (msg : String)
deriving DecidableEq, Repr

/-- 7-day retention window in milliseconds (`RETENTION_MS`). -/
def RETENTION_MS : Nat := 7 * 24 * 60 * 60 * 1000

-- ============================================================
-- Helpers (src/component/helpers.ts)
-- ============================================================

/-- `hasPermission(permissions, required)`: wildcard `*` or exact match. -/
def hasPermission (permissions : List String) (required : String) : Bool :=
  if permissions.contains "*" then true
  else permissions.contains required

/-- Point lookup of a role document by id (`ctx.db.get(roleId)`). -/
def roleById (db : DB) (rid : Nat) : Option Role :=
  db.roles.find? (fun r => r.id == rid)

/-- `getProfile`: profile by userId, filtered so a soft-deleted profile
reads as absent. -/
def getProfile (db : DB) (userId : String) : Option Profile :=
  match db.profiles.find? (fun p => p.userId == userId) with
  | none => none
  | some p => if p.deletedAt.isSome then none else some p

/-- `requireProfile`: throwing variant of `getProfile`. -/
def requireProfile (db : DB) (userId : String) : Except Err Profile :=
  match getProfile db userId with
  | none => .error (.notFound "User profile not found")
  | some p => .ok p

/-- `getMembership`: membership by (org, user) joined with its role. -/
def getMembership (db : DB) (orgId : Nat) (userId : String) :
    Option (Member × Role) :=
  match db.members.find? (fun m => m.orgId == orgId && m.userId == userId) with
  | none => none
  | some m =>
    match roleById db m.roleId with
    | none => none
    | some r => some (m, r)

/-- `requireMembership`: throwing variant of `getMembership`. -/
def requireMembership (db : DB) (orgId : Nat) (userId : String) :
    Except Err (Member × Role) :=
  match getMembership db orgId userId with
  | none => .error (.notFound "Not a member of this organization")
  | some mr => .ok mr

/-- `requirePermission`: membership plus a capability check on its role. -/
def requirePermission (db : DB) (orgId : Nat) (userId : String)
    (permission : String) : Except Err (Member × Role) :=
  match requireMembership db orgId userId with
  | .error e => .error e
  | .ok (m, r) =>
    if hasPermission r.permissions permission then .ok (m, r)
    else .error (.permissionDenied ("Permission denied: requires " ++ permission))

/-- `canManageRole`: the actor strictly outranks the target role. -/
def canManageRole (actorRole targetRole : Role) : Bool :=
  actorRole.sortOrder < targetRole.sortOrder

/-- `requireAdmin`: profile exists (not soft-deleted) and `isAdmin`. -/
def requireAdmin (db : DB) (actorUserId : String) : Except Err Profile :=
  match requireProfile db actorUserId with
  | .error e => .error e
  | .ok p =>
    if p.isAdmin then .ok p
    else .error (.permissionDenied "Platform admin access required")

/-- `requireOrg`: organization exists and is not soft-deleted. -/
def requireOrg (db : DB) (orgId : Nat) : Except Err Organization :=
  match db.orgs.find? (fun o => o.id == orgId) with
  | none => .error (.notFound "Organization not found")
  | some o =>
    if o.status = .deleted then .error (.notFound "Organization not found")
    else .ok o

/-- `getRoleByName`: role by (org, name). -/
def getRoleByName (db : DB) (orgId : Nat) (name : String) : Option Role :=
  db.roles.find? (fun r => r.orgId == orgId && r.name == name)

/-- `writeAuditLog`: append one immutable entry. -/
def writeAuditLog (db : DB) (e : AuditEntry) : DB :=
  { db with auditLogs := db.auditLogs ++ [e] }

-- ============================================================
-- Roles (src/component/lib.ts: createRole, updateRole)
-- ============================================================

/-- `createRole`: requires `role:manage`; rejects a `sortOrder` stronger
than the actor's own role; rejects duplicate names; inserts a
non-system role and writes a `role.created` audit entry. -/
def createRole (userId : String) (orgId : Nat) (name : String)
    (description : Option String) (permissions : List String)
    (sortOrder : Int) (now : Nat) (db : DB) : Except Err (Nat × DB) :=
  match requirePermission db orgId userId "role:manage" with
  | .error e => .error e
  | .ok (_, arole) =>
    if sortOrder < arole.sortOrder then
      .error (.authorityViolation "Cannot create a role with higher authority than your own")
    else if (getRoleByName db orgId name).isSome then
      .error (.duplicateConflict ("Role \"" ++ name ++ "\" already exists in this organization"))
    else
      let rid := db.nextId
      let db' := { db with
        roles := db.roles ++ [⟨rid, orgId, name, description, permissions, false, sortOrder⟩],
        nextId := db.nextId + 1 }
      let db' := writeAuditLog db'
        ⟨some orgId, userId, none, "role.created", "role", some rid, now⟩
      .ok (rid, db')

/-- The patch applied by `updateRole` to the targeted role document:
each optional argument overwrites its field only when provided. -/
def applyRoleUpdates (r : Role) (name? : Option String)
    (description? : Option String) (permissions? : Option (List String))
    (sortOrder? : Option Int) : Role :=
  { r with
    name := name?.getD r.name
    description := match description? with
      | some d => some d
      | none => r.description
    permissions := permissions?.getD r.permissions
    sortOrder := sortOrder?.getD r.sortOrder }

/-- `updateRole`: requires `role:manage`; rejects renaming a system
role; rejects a duplicate name on rename; rejects a provided
`sortOrder` stronger than the actor's own; patches the provided fields
and writes a `role.updated` audit entry. -/
def updateRole (userId : String) (orgId roleId : Nat) (name? : Option String)
    (description? : Option String) (permissions? : Option (List String))
    (sortOrder? : Option Int) (now : Nat) (db : DB) : Except Err (Unit × DB) :=
  match requirePermission db orgId userId "role:manage" with
  | .error e => .error e
  | .ok (_, arole) =>
    match roleById db roleId with
    | none => .error (.notFound "Role not found")
    | some role =>
      if role.orgId != orgId then
        .error (.notFound "Role not found")
      else if role.isSystem && (match name? with
          | some n => n != role.name
          | none => false) then
        .error (.invalidState "Cannot rename system roles")
      else if (match name? with
          | some n => n != role.name && (getRoleByName db orgId n).isSome
          | none => false) then
        .error (.duplicateConflict ("Role \"" ++ name?.getD "" ++ "\" already exists in this organization"))
      else if (match sortOrder? with
          | some so => decide (so < arole.sortOrder)
          | none => false) then
        .error (.authorityViolation "Cannot set role authority higher than your own")
      else
        let db' := { db with roles := db.roles.map (fun r =>
          if r.id == roleId then applyRoleUpdates r name? description? permissions? sortOrder?
          else r) }
        let db' := writeAuditLog db'
          ⟨some orgId, userId, none, "role.updated", "role", some roleId, now⟩
        .ok ((), db')

-- ============================================================
-- Members (src/component/lib.ts: updateMemberRole, removeMember,
-- leaveOrg, forceRemoveMember, transferOwnership)
-- ============================================================

/-- `updateMemberRole`: requires `member:manage`; the actor must
strictly outrank the target's current role and the new role; patches
the target membership and writes `member.role_changed`. -/
def updateMemberRole (userId : String) (orgId : Nat) (targetUserId : String)
    (roleId : Nat) (now : Nat) (db : DB) : Except Err (Unit × DB) :=
  match requirePermission db orgId userId "member:manage" with
  | .error e => .error e
  | .ok (_, arole) =>
    match requireMembership db orgId targetUserId with
    | .error e => .error e
    | .ok (tm, trole) =>
      match roleById db roleId with
      | none => .error (.notFound "Role not found")
      | some newRole =>
        if newRole.orgId != orgId then
          .error (.notFound "Role not found")
        else if !canManageRole arole trole then
          .error (.authorityViolation "Cannot manage a member with equal or higher authority")
        else if !canManageRole arole newRole then
          .error (.authorityViolation "Cannot assign a role with higher authority than your own")
        else
          let db' := { db with members := db.members.map (fun m =>
            if m.id == tm.id then { m with roleId := roleId } else m) }
          let db' := writeAuditLog db'
            ⟨some orgId, userId, none, "member.role_changed", "member", some tm.id, now⟩
          .ok ((), db')

/-- `removeMember`: requires `member:remove`; the actor must strictly
outrank the target; self-removal is rejected; deletes the membership
and writes `member.removed`. -/
def removeMember (userId : String) (orgId : Nat) (targetUserId : String)
    (now : Nat) (db : DB) : Except Err (Unit × DB) :=
  match requirePermission db orgId userId "member:remove" with
  | .error e => .error e
  | .ok (_, arole) =>
    match requireMembership db orgId targetUserId with
    | .error e => .error e
    | .ok (tm, trole) =>
      if !canManageRole arole trole then
        .error (.authorityViolation "Cannot remove a member with equal or higher authority")
      else if userId == targetUserId then
        .error (.invalidState "Use leaveOrg to remove yourself")
      else
        let db' := { db with members := db.members.filter (fun m => m.id != tm.id) }
        let db' := writeAuditLog db'
          ⟨some orgId, userId, none, "member.removed", "member", some tm.id, now⟩
        .ok ((), db')

/-- The "clear active org if this was it" block of `leaveOrg`. -/
def clearActiveOrg (db : DB) (userId : String) (orgId : Nat) : DB :=
  match getProfile db userId with
  | some p =>
    if p.activeOrgId == some orgId then
      { db with profiles := db.profiles.map (fun q =>
        if q.id == p.id then { q with activeOrgId := none } else q) }
    else db
  | none => db

/-- `leaveOrg`: the only self-removal path; blocked when the leaver
holds the role named `owner` and is its sole holder; deletes the
membership, clears `activeOrgId` when it pointed at this org, and
writes `member.left`. -/
def leaveOrg (userId : String) (orgId : Nat) (now : Nat) (db : DB) :
    Except Err (Unit × DB) :=
  match requireMembership db orgId userId with
  | .error e => .error e
  | .ok (m, r) =>
    if r.name == "owner" &&
        (db.members.filter (fun x => x.orgId == orgId && x.roleId == m.roleId)).length ≤ 1 then
      .error (.lastOwnerViolation "Cannot leave: you are the last owner. Transfer ownership first.")
    else
      let db' := { db with members := db.members.filter (fun x => x.id != m.id) }
      let db' := clearActiveOrg db' userId orgId
      let db' := writeAuditLog db'
        ⟨some orgId, userId, none, "member.left", "member", some m.id, now⟩
      .ok ((), db')

/-- `forceRemoveMember`: platform-admin bypass; deletes the target's
membership with no hierarchy or last-owner check. -/
def forceRemoveMember (actorUserId : String) (orgId : Nat)
    (targetUserId : String) (now : Nat) (db : DB) : Except Err (Unit × DB) :=
  match requireAdmin db actorUserId with
  | .error e => .error e
  | .ok _ =>
    match getMembership db orgId targetUserId with
    | none => .error (.notFound "User is not a member of this organization")
    | some (m, _) =>
      let db' := { db with members := db.members.filter (fun x => x.id != m.id) }
      let db' := writeAuditLog db'
        ⟨some orgId, actorUserId, none, "member.removed", "member", some m.id, now⟩
      .ok ((), db')

/-- `transferOwnership`: platform-admin only; demotes every holder of
the `owner` role to the `admin` role, then promotes the designated
member to `owner`, and writes `org.ownership_transferred`. -/
def transferOwnership (actorUserId : String) (orgId : Nat)
    (newOwnerUserId : String) (now : Nat) (db : DB) : Except Err (Unit × DB) :=
  match requireAdmin db actorUserId with
  | .error e => .error e
  | .ok _ =>
    match getRoleByName db orgId "owner" with
    | none => .error (.notFound "Owner role not found")
    | some ownerRole =>
      match getRoleByName db orgId "admin" with
      | none => .error (.notFound "Admin role not found")
      | some adminRole =>
        let db1 := { db with members := db.members.map (fun m =>
          if m.orgId == orgId && m.roleId == ownerRole.id then
            { m with roleId := adminRole.id }
          else m) }
        match getMembership db1 orgId newOwnerUserId with
        | none => .error (.notFound "New owner is not a member of this organization")
        | some (nm, _) =>
          let db2 := { db1 with members := db1.members.map (fun m =>
            if m.id == nm.id then { m with roleId := ownerRole.id } else m) }
          let db2 := writeAuditLog db2
            ⟨some orgId, actorUserId, none, "org.ownership_transferred", "organization", some orgId, now⟩
          .ok ((), db2)

-- ============================================================
-- Invitations (src/component/lib.ts: createInvitation,
-- acceptInvitation)
-- ============================================================

/-- `createInvitation`: requires `member:invite` and a live org; needs
an email or a phone; the role must belong to the org; rejects a second
`pending` invitation for the same (org, email) or (org, phone);
inserts the invitation (storing the token hash) and writes
`invitation.created`. -/
def createInvitation (userId : String) (orgId : Nat) (email : Option String)
    (phone : Option String) (roleId : Nat) (tokenHash : String)
    (expiresAt : Nat) (now : Nat) (db : DB) : Except Err (Nat × DB) :=
  match requirePermission db orgId userId "member:invite" with
  | .error e => .error e
  | .ok _ =>
    match requireOrg db orgId with
    | .error e => .error e
    | .ok _ =>
      if email.isNone && phone.isNone then
        .error (.invalidState "Either email or phone is required")
      else
        match roleById db roleId with
        | none => .error (.notFound "Role not found in this organization")
        | some role =>
          if role.orgId != orgId then
            .error (.notFound "Role not found in this organization")
          else if (match email with
              | some e => (db.invitations.find? (fun (i : Invitation) =>
                  i.orgId == orgId && i.email == some e && i.status == InvStatus.pending)).isSome
              | none => false) then
            .error (.duplicateConflict "A pending invitation already exists for this email")
          else if (match phone with
              | some ph => (db.invitations.find? (fun (i : Invitation) =>
                  i.orgId == orgId && i.phone == some ph && i.status == InvStatus.pending)).isSome
              | none => false) then
            .error (.duplicateConflict "A pending invitation already exists for this phone")
          else
            let iid := db.nextId
            let db' := { db with
              invitations := db.invitations ++
                [⟨iid, orgId, email, phone, roleId, userId, .pending, tokenHash, expiresAt, none, none⟩],
              nextId := db.nextId + 1 }
            let db' := writeAuditLog db'
              ⟨some orgId, userId, none, "invitation.created", "invitation", some iid, now⟩
            .ok (iid, db')

/-- `acceptInvitation`: looks up the invitation by token hash and
transitions `pending -> accepted` when all checks pass, inserting the
membership and writing `invitation.accepted` then `member.added`.  On
the expired path the source issues a patch to status `expired` and then
throws; the throw aborts the Convex transaction, so that patch never
commits and the stored status stays `pending` — the embedding therefore
returns the bare `Expired` error. -/
def acceptInvitation (userId tokenHash : String) (now : Nat) (db : DB) :
    Except Err ((Nat × Nat) × DB) :=
  match db.invitations.find? (fun i => i.token == tokenHash) with
  | none => .error (.notFound "Invitation not found")
  | some inv =>
    if inv.status != .pending then
      .error (.invalidState ("Invitation is " ++ inv.status.text))
    else if inv.expiresAt < now then
      .error (.expired "Invitation has expired")
    else if (match inv.email with
        | some e => (getProfile db userId).bind Profile.email != some e
        | none => false) then
      .error (.permissionDenied "Email does not match invitation")
    else if (match inv.phone with
        | some ph => (getProfile db userId).bind Profile.phone != some ph
        | none => false) then
      .error (.permissionDenied "Phone does not match invitation")
    else
      match roleById db inv.roleId with
      | none => .error (.notFound "The role for this invitation no longer exists. Please request a new invitation.")
      | some role =>
        if role.orgId != inv.orgId then
          .error (.notFound "The role for this invitation no longer exists. Please request a new invitation.")
        else if (getMembership db inv.orgId userId).isSome then
          .error (.duplicateConflict "Already a member of this organization")
        else
          let mid := db.nextId
          let db' := { db with
            members := db.members ++
              [(⟨mid, inv.orgId, userId, inv.roleId, now, some inv.invitedBy⟩ : Member)],
            nextId := db.nextId + 1 }
          let db' := { db' with invitations := db'.invitations.map (fun (i : Invitation) =>
            if i.id == inv.id then
              { i with status := .accepted, acceptedBy := some userId, acceptedAt := some now }
            else i) }
          let db' := writeAuditLog db'
            ⟨some inv.orgId, userId, none, "invitation.accepted", "invitation", some inv.id, now⟩
          let db' := writeAuditLog db'
            ⟨some inv.orgId, userId, none, "member.added", "member", some mid, now⟩
          .ok ((inv.orgId, mid), db')

-- ============================================================
-- Impersonation (src/component/lib.ts: startImpersonation,
-- getActiveImpersonation; src/client/types.ts: resolveEffectiveUserId)
-- ============================================================

/-- `startImpersonation`: platform-admin only; the target may not be an
admin; ends every prior `active` session of this admin, inserts the new
`active` session, and writes `impersonation.started`. -/
def startImpersonation (actorUserId targetUserId : String)
    (reason : Option String) (ttlMs : Nat) (now : Nat) (db : DB) :
    Except Err (Nat × DB) :=
  match requireAdmin db actorUserId with
  | .error e => .error e
  | .ok _ =>
    match requireProfile db targetUserId with
    | .error e => .error e
    | .ok targetProfile =>
      if targetProfile.isAdmin then
        .error (.adminImpersonationViolation "Cannot impersonate another admin")
      else
        let db' := { db with sessions := db.sessions.map (fun (s : ImpSession) =>
          if s.adminUserId == actorUserId && s.status == ImpStatus.active then
            { s with status := .ended, endedAt := some now }
          else s) }
        let sid := db'.nextId
        let db' := { db' with
          sessions := db'.sessions ++
            [(⟨sid, actorUserId, targetUserId, reason, now, now + ttlMs, none, .active⟩ : ImpSession)],
          nextId := db'.nextId + 1 }
        let db' := writeAuditLog db'
          ⟨none, actorUserId, none, "impersonation.started", "impersonation", some sid, now⟩
        .ok (sid, db')

/-- `getActiveImpersonation`: first `active` session of the admin, or
null when there is none or it has expired. -/
def getActiveImpersonation (db : DB) (actorUserId : String) (now : Nat) :
    Option ImpSession :=
  match db.sessions.find? (fun s =>
      s.adminUserId == actorUserId && s.status == .active) with
  | none => none
  | some s => if s.expiresAt < now then none else some s

/-- `resolveEffectiveUserId` (client wrapper): the active session's
target when one exists, otherwise the actor unchanged. -/
def resolveEffectiveUserId (db : DB) (actorUserId : String) (now : Nat) : String :=
  match getActiveImpersonation db actorUserId now with
  | some s => s.targetUserId
  | none => actorUserId

-- ============================================================
-- Devices (src/component/lib.ts: registerDevice, listDevices;
-- src/client/types.ts: registerDevice wrapper)
-- ============================================================

/-- Component `registerDevice`: upsert by session id.  An existing row
is patched in place (its `userId` is never rewritten); otherwise a new
row is inserted for the given user and `device.registered` is logged. -/
def registerDevice (userId sessionId : String) (deviceName? : Option String)
    (deviceType? : Option String) (browser? : Option String)
    (os? : Option String) (ipAddress? : Option String) (now : Nat) (db : DB) :
    Except Err (Nat × DB) :=
  match db.devices.find? (fun d => d.sessionId == sessionId) with
  | some existing =>
    let db' := { db with devices := db.devices.map (fun d =>
      if d.id == existing.id then
        { d with
          lastActiveAt := now
          deviceName := match deviceName? with | some v => some v | none => d.deviceName
          browser := match browser? with | some v => some v | none => d.browser
          os := match os? with | some v => some v | none => d.os
          ipAddress := match ipAddress? with | some v => some v | none => d.ipAddress }
      else d) }
    .ok (existing.id, db')
  | none =>
    let did := db.nextId
    let db' := { db with
      devices := db.devices ++
        [⟨did, userId, sessionId, deviceName?, deviceType?, browser?, os?, ipAddress?, now, now⟩],
      nextId := db.nextId + 1 }
    let db' := writeAuditLog db'
      ⟨none, userId, none, "device.registered", "device", some did, now⟩
    .ok (did, db')

/-- `listDevices`: all device rows of one user. -/
def listDevices (db : DB) (userId : String) : List Device :=
  db.devices.filter (fun d => d.userId == userId)

/-- Client `registerDevice` wrapper.  The source splits the raw auth
identity subject on `|` into `[userId, sessionId, ...]`; `subjectParts`
is that split.  The wrapper never resolves impersonation: it registers
the device under the caller's own user id `parts[0]` (and does nothing
when either part is missing or empty). -/
def clientRegisterDevice (subjectParts : List String)
    (deviceName? : Option String) (deviceType? : Option String)
    (browser? : Option String) (os? : Option String) (now : Nat) (db : DB) : DB :=
  match subjectParts[0]?, subjectParts[1]? with
  | some u, some s =>
    if u == "" || s == "" then db
    else
      match registerDevice u s deviceName? deviceType? browser? os? none now db with
      | .ok (_, db') => db'
      | .error _ => db
  | _, _ => db

-- ============================================================
-- Admin (src/component/lib.ts: setAdmin) and retention purge
-- (src/component/lib.ts: purgeDeletedOrgs)
-- ============================================================

/-- `setAdmin`: platform-admin only; a self-targeted revocation is
rejected; otherwise sets the target profile's `isAdmin` flag and writes
one `admin.granted` / `admin.revoked` audit entry. -/
def setAdmin (actorUserId targetUserId : String) (isAdmin : Bool)
    (now : Nat) (db : DB) : Except Err (Unit × DB) :=
  match requireAdmin db actorUserId with
  | .error e => .error e
  | .ok _ =>
    if actorUserId == targetUserId && !isAdmin then
      .error (.invalidState "Cannot remove your own admin status")
    else
      match requireProfile db targetUserId with
      | .error e => .error e
      | .ok p =>
        let db' := { db with profiles := db.profiles.map (fun q =>
          if q.id == p.id then { q with isAdmin := isAdmin } else q) }
        let db' := writeAuditLog db'
          ⟨none, actorUserId, none,
            (if isAdmin then "admin.granted" else "admin.revoked"),
            "profile", some p.id, now⟩
        .ok ((), db')

/-- Purge eligibility of one organization row: status `deleted` with a
set `deletedAt` at least the retention window in the past. -/
def orgPurgeEligible (now : Nat) (o : Organization) : Bool :=
  o.status == .deleted &&
    (match o.deletedAt with
     | some d => 0 < d && d ≤ now - RETENTION_MS
     | none => false)

/-- Cascade hard-delete of one organization: roles, memberships,
invitations, invitation codes and audit entries of the org, then the
organization row itself. -/
def purgeOrgOne (db : DB) (oid : Nat) : DB :=
  { db with
    roles := db.roles.filter (fun r => r.orgId != oid)
    members := db.members.filter (fun m => m.orgId != oid)
    invitations := db.invitations.filter (fun i => i.orgId != oid)
    invitationCodes := db.invitationCodes.filter (fun c => c.orgId != oid)
    auditLogs := db.auditLogs.filter (fun l => l.orgId != some oid)
    orgs := db.orgs.filter (fun o => o.id != oid) }

/-- `purgeDeletedOrgs`: batch of at most 50 eligible organizations,
each cascade-deleted; returns the number of organizations purged. -/
def purgeDeletedOrgs (now : Nat) (db : DB) : Nat × DB :=
  (((db.orgs.filter (orgPurgeEligible now)).take 50).length,
   ((db.orgs.filter (orgPurgeEligible now)).take 50).foldl
     (fun acc o => purgeOrgOne acc o.id) db)

-- ============================================================
-- Derived notions used by the claims
-- ============================================================

/-- `r` is a top-authority role of org `oid`: it belongs to the org and
no role of the org has a lower `sortOrder`. -/
def isTopAuthority (db : DB) (oid : Nat) (r : Role) : Bool :=
  r.orgId == oid &&
    db.roles.all (fun r' => r'.orgId != oid || decide (r.sortOrder ≤ r'.sortOrder))

/-- The ownership invariant: every non-deleted organization has zero
memberships or at least one membership whose role is a top-authority
role of the org. -/
def ownerInvariantHolds (db : DB) : Bool :=
  db.orgs.all fun o =>
    o.status == .deleted ||
    db.members.all (fun m => m.orgId != o.id) ||
    db.members.any (fun m => m.orgId == o.id &&
      (match roleById db m.roleId with
       | some r => isTopAuthority db o.id r
       | none => false))

-- ============================================================
-- Concrete test fixture
-- ============================================================

/-- Default permission list of the seeded `admin` system role. -/
def adminPerms : List String :=
  ["org:read", "org:write", "member:read", "member:invite", "member:manage",
   "member:remove", "role:read", "role:manage", "invitation:read",
   "invitation:manage", "audit:read"]

/-- A small store: one org seeded with the default system roles plus
two custom roles, members alice (owner), carol (admin) and dave
(member), a platform admin `root`, and a not-yet-member `bob`. -/
def baseDb : DB := {
  orgs := [⟨1, "Acme", "acme", "alice", .active, none⟩]
  roles := [⟨2, 1, "owner", none, ["*"], true, 0⟩,
            ⟨3, 1, "admin", none, adminPerms, true, 10⟩,
            ⟨4, 1, "member", none, ["org:read", "member:read", "role:read", "invitation:read"], true, 20⟩,
            ⟨5, 1, "billing", none, ["org:read"], false, 15⟩,
            ⟨6, 1, "support", none, ["org:read"], false, 5⟩]
  members := [⟨10, 1, "alice", 2, 0, none⟩,
              ⟨11, 1, "carol", 3, 0, none⟩,
              ⟨12, 1, "dave", 4, 0, none⟩]
  invitations := []
  invitationCodes := []
  profiles := [⟨20, "alice", some "alice@example.com", none, none, none, false, false, none⟩,
               ⟨21, "carol", some "carol@example.com", none, none, none, false, false, none⟩,
               ⟨22, "dave", some "dave@example.com", none, none, none, false, false, none⟩,
               ⟨23, "root", some "root@example.com", none, none, none, false, true, none⟩,
               ⟨24, "bob", some "bob@example.com", none, none, none, false, false, none⟩]
  devices := []
  sessions := []
  auditLogs := []
  nextId := 30 }

-- ============================================================
-- C9: hasPermission
-- ============================================================

/-- C9: for every list of permission strings and every required
capability, `hasPermission permissions required` is true exactly when
`permissions` contains the literal wildcard `*` or contains `required`
itself — no prefix or glob matching, and the function is total (pure,
no failure mode). -/
theorem hasPermission_iff_wildcard_or_exact (permissions : List String)
    (required : String) :
    hasPermission permissions required = true ↔
      "*" ∈ permissions ∨ required ∈ permissions := by
  unfold hasPermission
  by_cases hw : permissions.contains "*"
  · simp [hw, List.elem_iff.mp hw]
  · have hw' : "*" ∉ permissions := fun h => hw (List.elem_iff.mpr h)
    simp [hw, hw', List.elem_iff]

-- ============================================================
-- C5: expiry path of acceptInvitation (code bug)
-- ============================================================

/-- Fixture for the expiry path: `baseDb` plus one pending invitation
for bob whose `expiresAt` (1000) is already in the past at call time
(2000). -/
def c5db : DB :=
  { baseDb with invitations :=
      [⟨40, 1, some "bob@example.com", none, 4, "alice", .pending, "tokhash", 1000, none, none⟩] }

/-- C5: accepting a pending invitation whose deadline has passed fails
with the `Expired` error.  The source then intends to persist
`status := expired`, but the patch is issued immediately before the
throw and the throw aborts the Convex mutation transaction, so no
mutation commits and the stored status remains `pending` — contrary to
the claimed lazy transition.  All other failing paths likewise commit
nothing, which is what the error result (with no successor state)
expresses. -/
theorem acceptInvitation_expired_no_commit :
    acceptInvitation "bob" "tokhash" 2000 c5db =
      .error (.expired "Invitation has expired") := by
  rfl

-- ============================================================
-- C1: role creation/edit authority (corrected)
-- ============================================================

/-- Result state of the counterexample call: carol (role `admin`,
`sortOrder 10`, holding `role:manage`) edits only the description of
the custom role `support` (`sortOrder 5`). -/
def c1db' : DB :=
  match updateRole "carol" 1 6 none (some "Support desk") none none 100 baseDb with
  | .ok (_, d) => d
  | .error _ => baseDb

/-- C1 counterexample: `updateRole` by an actor with `sortOrder 10` on
a role with `sortOrder 5 < 10` succeeds when no new `sortOrder` is
provided, and the affected role's resulting `sortOrder` stays `5`,
which is `< 10`: the claim that every edit is permitted only when the
edited role satisfies `R.sortOrder >= R_actor.sortOrder`, and that the
resulting `sortOrder` is never below the actor's, is false on the code. -/
theorem updateRole_keeps_stronger_sortOrder :
    updateRole "carol" 1 6 none (some "Support desk") none none 100 baseDb =
      .ok ((), c1db') ∧
    (getMembership baseDb 1 "carol").map (fun mr => mr.2.sortOrder) = some 10 ∧
    (roleById c1db' 6).map Role.sortOrder = some 5 := by
  refine ⟨rfl, rfl, rfl⟩

-- ============================================================
-- C3: member management authority (corrected)
-- ============================================================

/-- C3 counterexample: carol (role `admin`, `sortOrder 10`) strictly
outranks dave (role `member`, `sortOrder 20`) and tries to assign him
the `admin` role itself (`sortOrder 10`).  The claimed rule
(new role's `sortOrder >= R_actor.sortOrder`, equality allowed) would
permit this, but the code requires the actor to strictly outrank the
new role and rejects it with an authority violation. -/
theorem updateMemberRole_rejects_equal_authority :
    (getMembership baseDb 1 "carol").map (fun mr => mr.2.sortOrder) = some 10 ∧
    (getMembership baseDb 1 "dave").map (fun mr => mr.2.sortOrder) = some 20 ∧
    (roleById baseDb 3).map Role.sortOrder = some 10 ∧
    updateMemberRole "carol" 1 "dave" 3 100 baseDb =
      .error (.authorityViolation "Cannot assign a role with higher authority than your own") := by
  refine ⟨rfl, rfl, rfl, rfl⟩

-- ============================================================
-- C2: ownership invariant (corrected)
-- ============================================================

/-- Result state of the counterexample call: the platform admin `root`
force-removes alice, the sole holder of the `owner` role, from an org
that still has other members. -/
def c2db' : DB :=
  match forceRemoveMember "root" 1 "alice" 100 baseDb with
  | .ok (_, d) => d
  | .error _ => baseDb

/-- C2 counterexample: the ownership invariant holds of `baseDb`, yet
`forceRemoveMember` (admin bypass, listed by the claim) succeeds in
removing the only owner while carol and dave remain members, leaving a
non-deleted organization with memberships but no holder of its
top-authority role. -/
theorem forceRemoveMember_breaks_owner_invariant :
    ownerInvariantHolds baseDb = true ∧
    forceRemoveMember "root" 1 "alice" 100 baseDb = .ok ((), c2db') ∧
    ownerInvariantHolds c2db' = false := by
  refine ⟨by decide, rfl, by decide⟩

/-- Reachable state 1: alice (owner, sortOrder 0) re-assigns dave to
the custom `support` role (id 6, sortOrder 5) with `updateMemberRole`. -/
def c2adb1 : DB :=
  match updateMemberRole "alice" 1 "dave" 6 100 baseDb with
  | .ok (_, d) => d
  | .error _ => baseDb

/-- Reachable state 2: alice then raises the `owner` role's own
`sortOrder` to 50 with `updateRole` — permitted, because only renaming
a system role is blocked and 50 is not below the actor's 0.  The role
named `owner` is no longer the org's top-authority role; `support` is. -/
def c2adb2 : DB :=
  match updateRole "alice" 1 2 none none none (some 50) 200 c2adb1 with
  | .ok (_, d) => d
  | .error _ => c2adb1

/-- Reachable state 3: dave — by then the sole holder of the org's
top-authority role `support` — leaves with `leaveOrg`. -/
def c2adb3 : DB :=
  match leaveOrg "dave" 1 300 c2adb2 with
  | .ok (_, d) => d
  | .error _ => c2adb2

/-- C2 (amended): the claimed invariant is not maintained by the code.
Its only last-owner protection is `leaveOrg`'s, and that guard is
name-based, not authority-based: given the leaver's membership
`(m, r)`, the call fails with `LastOwnerViolation` exactly when `r` is
named `owner` and at most one member of the org holds `m.roleId`
(first conjunct, an exact characterization).  Because `updateRole`
blocks only the renaming of system roles, the `owner` role's
`sortOrder` can be raised past other roles, and then the name-based
guard no longer protects the top-authority holder: concretely from
`baseDb`, alice moves dave to `support` (sortOrder 5) and re-sorts
`owner` to 50 — the invariant still holds, dave now being the
top-authority holder — and dave's `leaveOrg` then succeeds, leaving a
non-deleted org with two members and no top-authority holder.
(`forceRemoveMember` bypasses even the name-based guard: see the
counterexample.) -/
theorem last_owner_guard_name_based :
    (∀ (db : DB) (u : String) (oid now : Nat) (m : Member) (r : Role),
      requireMembership db oid u = .ok (m, r) →
      (leaveOrg u oid now db = .error (.lastOwnerViolation
          "Cannot leave: you are the last owner. Transfer ownership first.") ↔
        r.name = "owner" ∧
        (db.members.filter (fun x =>
          x.orgId == oid && x.roleId == m.roleId)).length ≤ 1)) ∧
    updateMemberRole "alice" 1 "dave" 6 100 baseDb = .ok ((), c2adb1) ∧
    updateRole "alice" 1 2 none none none (some 50) 200 c2adb1 =
      .ok ((), c2adb2) ∧
    ownerInvariantHolds c2adb2 = true ∧
    leaveOrg "dave" 1 300 c2adb2 = .ok ((), c2adb3) ∧
    c2adb3.orgs.map Organization.status = [.active] ∧
    (c2adb3.members.filter (fun m => m.orgId == 1)).length = 2 ∧
    ownerInvariantHolds c2adb3 = false := by
  refine ⟨?_, rfl, rfl, by decide, rfl, by decide, by decide, by decide⟩
  intro db u oid now m r hreq
  unfold leaveOrg
  rw [hreq]
  dsimp only
  by_cases hc : (r.name == "owner" && decide ((db.members.filter (fun x =>
      x.orgId == oid && x.roleId == m.roleId)).length ≤ 1)) = true
  · rw [if_pos hc]
    simp only [Bool.and_eq_true, beq_iff_eq, decide_eq_true_eq] at hc
    exact ⟨fun _ => hc, fun _ => rfl⟩
  · rw [if_neg hc]
    constructor
    · intro h
      exact Except.noConfusion h
    · rintro ⟨h1, h2⟩
      exact absurd (by simp [h1, h2]) hc

/-- C2 witness: the guard characterization applied to alice in
`baseDb` — her role is named `owner` and she is its sole holder, so
her `leaveOrg` fails with the last-owner violation. -/
theorem last_owner_guard_name_based_witness :
    requireMembership baseDb 1 "alice" =
      .ok (⟨10, 1, "alice", 2, 0, none⟩,
           ⟨2, 1, "owner", none, ["*"], true, 0⟩) ∧
    leaveOrg "alice" 1 100 baseDb = .error (.lastOwnerViolation
      "Cannot leave: you are the last owner. Transfer ownership first.") :=
  ⟨rfl, (last_owner_guard_name_based.1 baseDb "alice" 1 100
      ⟨10, 1, "alice", 2, 0, none⟩ ⟨2, 1, "owner", none, ["*"], true, 0⟩
      rfl).mpr ⟨rfl, by decide⟩⟩

-- ============================================================
-- C10: setAdmin
-- ============================================================

/-- C10: a platform admin targeting themself with `isAdmin = false` is
rejected (and, the mutation having thrown, nothing commits), while for
any other target with an existing (non-deleted) profile the call
succeeds, sets exactly that profile's `isAdmin` flag and appends
exactly one `admin.granted` / `admin.revoked` audit entry. -/
theorem setAdmin_self_revoke_rejected_otherwise_sets_flag
    (db : DB) (a : String) (pa : Profile)
    (hadm : requireAdmin db a = .ok pa) :
    (∀ now, setAdmin a a false now db =
        .error (.invalidState "Cannot remove your own admin status")) ∧
    (∀ t val now p, getProfile db t = some p → (a = t → val = true) →
        setAdmin a t val now db = .ok ((),
          { db with
            profiles := db.profiles.map (fun q =>
              if q.id == p.id then { q with isAdmin := val } else q)
            auditLogs := db.auditLogs ++
              [⟨none, a, none, (if val then "admin.granted" else "admin.revoked"),
                "profile", some p.id, now⟩] })) := by
  constructor
  · intro now
    unfold setAdmin
    rw [hadm]
    simp
  · intro t val now p hp hcond
    unfold setAdmin
    rw [hadm]
    have hguard : (a == t && !val) = false := by
      by_cases hat : a = t
      · rw [hcond hat]
        simp
      · simp [hat]
    simp only [hguard, Bool.false_eq_true, if_false, requireProfile, hp,
      writeAuditLog]

/-- C10 witness: in `baseDb` the platform admin `root` cannot revoke
their own admin flag, but can grant dave the flag. -/
theorem setAdmin_witness :
    setAdmin "root" "root" false 100 baseDb =
      .error (.invalidState "Cannot remove your own admin status") ∧
    (setAdmin "root" "dave" true 100 baseDb).toOption.isSome = true := by
  have h := setAdmin_self_revoke_rejected_otherwise_sets_flag baseDb "root"
    ⟨23, "root", some "root@example.com", none, none, none, false, true, none⟩ rfl
  refine ⟨h.1 100, ?_⟩
  rw [h.2 "dave" true 100
    ⟨22, "dave", some "dave@example.com", none, none, none, false, false, none⟩
    rfl (fun _ => rfl)]
  rfl

-- ============================================================
-- C6: impersonation sessions
-- ============================================================

/-- The `active` impersonation session rows of one admin. -/
def activeSessionsOf (db : DB) (adminUserId : String) : List ImpSession :=
  db.sessions.filter (fun s =>
    s.adminUserId == adminUserId && s.status == ImpStatus.active)

/-- Filtering after a map that makes the predicate false everywhere
yields the empty list. -/
theorem filter_map_of_pred_false {α : Type} (f : α → α) (p : α → Bool) :
    ∀ l : List α, (∀ x ∈ l, p (f x) = false) → (l.map f).filter p = [] := by
  intro l
  induction l with
  | nil => intro _; rfl
  | cons x tl ih =>
    intro h
    rw [List.map_cons, List.filter_cons, h x (List.mem_cons_self x tl)]
    simp only [Bool.false_eq_true, if_false]
    exact ih fun y hy => h y (List.mem_cons_of_mem x hy)

/-- Filtering after a map that preserves the predicate and fixes every
element satisfying it is the same as filtering the original list. -/
theorem filter_map_congr {α : Type} (f : α → α) (p : α → Bool) :
    ∀ l : List α, (∀ x ∈ l, p (f x) = p x ∧ (p x = true → f x = x)) →
      (l.map f).filter p = l.filter p := by
  intro l
  induction l with
  | nil => intro _; rfl
  | cons x tl ih =>
    intro h
    have hx := h x (List.mem_cons_self x tl)
    rw [List.map_cons, List.filter_cons, List.filter_cons, hx.1]
    by_cases hp : p x = true
    · rw [if_pos hp, if_pos hp, hx.2 hp,
        ih fun y hy => h y (List.mem_cons_of_mem x hy)]
    · rw [if_neg hp, if_neg hp]
      exact ih fun y hy => h y (List.mem_cons_of_mem x hy)

/-- Ending every active session of admin `a` leaves no active session
row of `a`. -/
theorem filter_active_map_end (l : List ImpSession) (a : String) (now : Nat) :
    (l.map (fun s =>
        if s.adminUserId == a && s.status == ImpStatus.active then
          { s with status := .ended, endedAt := some now }
        else s)).filter
      (fun s => s.adminUserId == a && s.status == ImpStatus.active) = [] := by
  refine filter_map_of_pred_false _ _ l fun s _ => ?_
  by_cases h1 : (s.adminUserId == a && s.status == ImpStatus.active) = true
  · rw [if_pos h1]
    simp
  · rw [if_neg h1]
    exact Bool.eq_false_iff.mpr h1

/-- Ending the active sessions of admin `a` does not change the active
session rows of any other admin `b`. -/
theorem filter_active_map_end_other (l : List ImpSession) (a b : String)
    (hba : b ≠ a) (now : Nat) :
    (l.map (fun s =>
        if s.adminUserId == a && s.status == ImpStatus.active then
          { s with status := .ended, endedAt := some now }
        else s)).filter
      (fun s => s.adminUserId == b && s.status == ImpStatus.active) =
    l.filter (fun s => s.adminUserId == b && s.status == ImpStatus.active) := by
  refine filter_map_congr _ _ l fun s _ => ?_
  by_cases h1 : (s.adminUserId == a && s.status == ImpStatus.active) = true
  · have hsa : s.adminUserId = a := eq_of_beq ((Bool.and_eq_true _ _).mp h1).1
    have hnb : (s.adminUserId == b) = false := by
      rw [hsa]
      exact beq_eq_false_iff_ne.mpr fun h => hba h.symm
    constructor
    · rw [if_pos h1]
      simp [hnb]
    · intro hp
      rw [Bool.and_eq_true] at hp
      rw [hnb] at hp
      cases hp.1
  · rw [if_neg h1]
    exact ⟨rfl, fun _ => rfl⟩

/-- C6: a successful `startImpersonation` by admin `a` leaves exactly
one `active` session row for `a` (the freshly inserted one) and leaves
every other admin's active rows untouched; and `resolveEffectiveUserId`
for an actor with no unexpired active session returns the actor's own
id unchanged. -/
theorem startImpersonation_unique_active_and_resolve (db : DB) :
    (∀ a t reason ttl now sid db',
        startImpersonation a t reason ttl now db = .ok (sid, db') →
        activeSessionsOf db' a =
          [⟨sid, a, t, reason, now, now + ttl, none, .active⟩] ∧
        ∀ b, b ≠ a → activeSessionsOf db' b = activeSessionsOf db b) ∧
    (∀ a now,
        (∀ s ∈ db.sessions, s.adminUserId = a → s.status = .active →
          s.expiresAt < now) →
        resolveEffectiveUserId db a now = a) := by
  constructor
  · intro a t reason ttl now sid db' h
    unfold startImpersonation at h
    split at h
    · cases h
    · split at h
      · cases h
      · split at h
        · cases h
        · dsimp only [writeAuditLog] at h
          injection h with h2
          injection h2 with hsid hdb
          subst hsid
          subst hdb
          unfold activeSessionsOf
          dsimp only
          constructor
          · rw [List.filter_append, filter_active_map_end]
            simp
          · intro b hb
            rw [List.filter_append, filter_active_map_end_other _ a b hb now]
            have hab : (a == b) = false := beq_eq_false_iff_ne.mpr fun h => hb h.symm
            simp [hab]
  · intro a now hno
    unfold resolveEffectiveUserId getActiveImpersonation
    cases hf : db.sessions.find? (fun s =>
        s.adminUserId == a && s.status == ImpStatus.active) with
    | none => rfl
    | some s =>
      have hmem := List.mem_of_find?_eq_some hf
      have hp := List.find?_some hf
      have hconj := (Bool.and_eq_true _ _).mp hp
      have hsa : s.adminUserId = a := eq_of_beq hconj.1
      have hsact : s.status = ImpStatus.active := eq_of_beq hconj.2
      have hexp := hno s hmem hsa hsact
      simp [hexp]

/-- Fixture for the C6 witness: `baseDb` plus a stale but still
`active` impersonation session of `root`. -/
def c6db : DB :=
  { baseDb with sessions := [⟨50, "root", "dave", none, 0, 10000, none, .active⟩] }

/-- Result state of the C6 witness call. -/
def c6db' : DB :=
  match startImpersonation "root" "bob" none 500 100 c6db with
  | .ok (_, d) => d
  | .error _ => c6db

/-- C6 witness: starting a second impersonation for `root` ends the
prior active session and leaves exactly the new row active, and
`resolveEffectiveUserId` on a store with no session for `root` returns
`root`. -/
theorem startImpersonation_witness :
    activeSessionsOf c6db' "root" =
      [⟨30, "root", "bob", none, 100, 600, none, .active⟩] ∧
    resolveEffectiveUserId baseDb "root" 100 = "root" := by
  refine ⟨((startImpersonation_unique_active_and_resolve c6db).1
    "root" "bob" none 500 100 30 c6db' rfl).1, ?_⟩
  exact (startImpersonation_unique_active_and_resolve baseDb).2 "root" 100
    (by intro s hs; cases hs)

-- ============================================================
-- C7: device registration under impersonation
-- ============================================================

/-- C7: when the resolved effective user `t` differs from the acting
admin `a`, the client `registerDevice` path (which registers under the
raw auth identity, never the resolved user) neither inserts nor updates
any device row belonging to `t`: the target's device list is unchanged
and every `t`-owned row of the result already existed unchanged.
Hypotheses: device ids are unique and every stored row of the admin's
auth session belongs to the admin. -/
theorem registerDevice_never_touches_target
    (db : DB) (a s t : String) (now : Nat)
    (hres : resolveEffectiveUserId db a now = t)
    (hne : t ≠ a)
    (hid : (db.devices.map Device.id).Nodup)
    (hsess : ∀ d ∈ db.devices, d.sessionId = s → d.userId = a)
    (dn dt br os : Option String) :
    listDevices (clientRegisterDevice [a, s] dn dt br os now db) t =
      listDevices db t ∧
    ∀ d ∈ (clientRegisterDevice [a, s] dn dt br os now db).devices,
      d.userId = t → d ∈ db.devices := by
  unfold clientRegisterDevice
  simp only [List.getElem?_cons_zero, List.getElem?_cons_succ]
  by_cases he : (a == "" || s == "") = true
  · rw [if_pos he]
    exact ⟨rfl, fun d hd _ => hd⟩
  · rw [if_neg he]
    unfold registerDevice
    cases hfind : db.devices.find? (fun d => d.sessionId == s) with
    | some ex =>
      have hexmem := List.mem_of_find?_eq_some hfind
      have hexs0 := List.find?_some hfind
      have hexa : ex.userId = a := hsess ex hexmem (eq_of_beq hexs0)
      dsimp only
      have hdev : ∀ d ∈ db.devices,
          ((fun x : Device => x.userId == t)
            ((fun x : Device => if x.id == ex.id then
                { x with
                  lastActiveAt := now
                  deviceName := match dn with | some v => some v | none => x.deviceName
                  browser := match br with | some v => some v | none => x.browser
                  os := match os with | some v => some v | none => x.os
                  ipAddress := match none with | some v => some v | none => x.ipAddress } else x) d)
            = (d.userId == t)) ∧
          ((d.userId == t) = true →
            (fun x : Device => if x.id == ex.id then
                { x with
                  lastActiveAt := now
                  deviceName := match dn with | some v => some v | none => x.deviceName
                  browser := match br with | some v => some v | none => x.browser
                  os := match os with | some v => some v | none => x.os
                  ipAddress := match none with | some v => some v | none => x.ipAddress } else x) d = d) := by
        intro d hd
        dsimp only
        constructor
        · by_cases hdid : (d.id == ex.id) = true
          · rw [if_pos hdid]
          · rw [if_neg hdid]
        · intro hdt
          have hdut : d.userId = t := eq_of_beq hdt
          by_cases hdid : (d.id == ex.id) = true
          · have hdex : d = ex :=
              List.inj_on_of_nodup_map hid hd hexmem (eq_of_beq hdid)
            rw [hdex, hexa] at hdut
            exact absurd hdut.symm hne
          · rw [if_neg hdid]
      constructor
      · unfold listDevices
        exact filter_map_congr _ _ db.devices hdev
      · intro d hd hdt
        rw [List.mem_map] at hd
        obtain ⟨d0, hd0, hmap⟩ := hd
        by_cases hdid : (d0.id == ex.id) = true
        · exfalso
          have hd0ex : d0 = ex :=
            List.inj_on_of_nodup_map hid hd0 hexmem (eq_of_beq hdid)
          rw [if_pos hdid] at hmap
          rw [← hmap] at hdt
          dsimp only at hdt
          rw [hd0ex, hexa] at hdt
          exact hne hdt.symm
        · rw [if_neg hdid] at hmap
          rw [hmap] at hd0
          exact hd0
    | none =>
      simp only [writeAuditLog]
      have hnewt : ((a : String) == t) = false :=
        beq_eq_false_iff_ne.mpr fun h => hne h.symm
      constructor
      · unfold listDevices
        dsimp only
        rw [List.filter_append]
        simp [hnewt]
      · intro d hd hdt
        rw [List.mem_append] at hd
        cases hd with
        | inl h => exact h
        | inr h =>
          rw [List.mem_singleton] at h
          rw [h] at hdt
          exact absurd hdt.symm hne

/-- Fixture for the C7 witness: `root` actively impersonates dave, dave
has one device, and root's auth session `rsess` already has a device
row. -/
def c7db : DB :=
  { baseDb with
    sessions := [⟨50, "root", "dave", none, 0, 10000, none, .active⟩]
    devices := [⟨60, "dave", "dsess", none, none, none, none, none, 0, 0⟩,
                ⟨61, "root", "rsess", none, none, none, none, none, 0, 0⟩] }

/-- C7 witness: while root impersonates dave, registering root's device
leaves dave's device list unchanged. -/
theorem registerDevice_never_touches_target_witness :
    resolveEffectiveUserId c7db "root" 100 = "dave" ∧
    listDevices (clientRegisterDevice ["root", "rsess"] none none none none 100 c7db) "dave" =
      listDevices c7db "dave" := by
  refine ⟨rfl, ?_⟩
  exact (registerDevice_never_touches_target c7db "root" "rsess" "dave" 100
    rfl (by decide) (by decide) (by decide) none none none none).1

-- ============================================================
-- C8: purgeDeletedOrgs
-- ============================================================

/-- Effect of the purge loop on every table: each field is the original
list filtered by "orgId none of the purged ids"; profiles, devices,
sessions and nextId are untouched. -/
theorem purge_foldl_spec (l : List Organization) : ∀ db : DB,
    (l.foldl (fun acc o => purgeOrgOne acc o.id) db).orgs =
      db.orgs.filter (fun o => (l.map Organization.id).all (fun i => o.id != i)) ∧
    (l.foldl (fun acc o => purgeOrgOne acc o.id) db).roles =
      db.roles.filter (fun r => (l.map Organization.id).all (fun i => r.orgId != i)) ∧
    (l.foldl (fun acc o => purgeOrgOne acc o.id) db).members =
      db.members.filter (fun m => (l.map Organization.id).all (fun i => m.orgId != i)) ∧
    (l.foldl (fun acc o => purgeOrgOne acc o.id) db).invitations =
      db.invitations.filter (fun x => (l.map Organization.id).all (fun i => x.orgId != i)) ∧
    (l.foldl (fun acc o => purgeOrgOne acc o.id) db).invitationCodes =
      db.invitationCodes.filter (fun c => (l.map Organization.id).all (fun i => c.orgId != i)) ∧
    (l.foldl (fun acc o => purgeOrgOne acc o.id) db).auditLogs =
      db.auditLogs.filter (fun e => (l.map Organization.id).all (fun i => e.orgId != some i)) ∧
    (l.foldl (fun acc o => purgeOrgOne acc o.id) db).profiles = db.profiles ∧
    (l.foldl (fun acc o => purgeOrgOne acc o.id) db).devices = db.devices ∧
    (l.foldl (fun acc o => purgeOrgOne acc o.id) db).sessions = db.sessions ∧
    (l.foldl (fun acc o => purgeOrgOne acc o.id) db).nextId = db.nextId := by
  induction l with
  | nil =>
    intro db
    simp [List.filter_eq_self]
  | cons o tl ih =>
    intro db
    rw [List.foldl_cons]
    obtain ⟨h1, h2, h3, h4, h5, h6, h7, h8, h9, h10⟩ := ih (purgeOrgOne db o.id)
    refine ⟨?_, ?_, ?_, ?_, ?_, ?_, ?_, ?_, ?_, ?_⟩
    · rw [h1]
      dsimp only [purgeOrgOne]
      rw [List.filter_filter]
      refine List.filter_congr fun x _ => ?_
      simp [Bool.and_comm]
    · rw [h2]
      dsimp only [purgeOrgOne]
      rw [List.filter_filter]
      refine List.filter_congr fun x _ => ?_
      simp [Bool.and_comm]
    · rw [h3]
      dsimp only [purgeOrgOne]
      rw [List.filter_filter]
      refine List.filter_congr fun x _ => ?_
      simp [Bool.and_comm]
    · rw [h4]
      dsimp only [purgeOrgOne]
      rw [List.filter_filter]
      refine List.filter_congr fun x _ => ?_
      simp [Bool.and_comm]
    · rw [h5]
      dsimp only [purgeOrgOne]
      rw [List.filter_filter]
      refine List.filter_congr fun x _ => ?_
      simp [Bool.and_comm]
    · rw [h6]
      dsimp only [purgeOrgOne]
      rw [List.filter_filter]
      refine List.filter_congr fun x _ => ?_
      simp [Bool.and_comm]
    · rw [h7]
      rfl
    · rw [h8]
      rfl
    · rw [h9]
      rfl
    · rw [h10]
      rfl

/-- A run of `purgeDeletedOrgs` on a store with no eligible
organization affects zero rows and raises no error. -/
theorem purgeDeletedOrgs_noop (now : Nat) (db : DB)
    (h : db.orgs.filter (orgPurgeEligible now) = []) :
    purgeDeletedOrgs now db = (0, db) := by
  unfold purgeDeletedOrgs
  rw [h]
  rfl

/-- C8: when at most 50 organizations are eligible (so the batch is the
whole eligible set) and org ids are unique, `purgeDeletedOrgs` returns
the number of eligible orgs; it removes an eligible org (status
`deleted`, `deletedAt` set and at least the 7-day retention window in
the past) together with every dependent role, membership, invitation,
invitation code and audit entry; it leaves every non-eligible org and
all of its rows in place; and running it again on the purged store is a
no-op — it returns 0 and the unchanged store, and in particular a
second invocation on an already-purged org id affects zero rows and
raises no error. -/
theorem purgeDeletedOrgs_spec (now : Nat) (db : DB)
    (h50 : (db.orgs.filter (orgPurgeEligible now)).length ≤ 50)
    (hid : (db.orgs.map Organization.id).Nodup) :
    (purgeDeletedOrgs now db).1 =
      (db.orgs.filter (orgPurgeEligible now)).length ∧
    (∀ o ∈ db.orgs, orgPurgeEligible now o = true →
      (∀ o' ∈ (purgeDeletedOrgs now db).2.orgs, o'.id ≠ o.id) ∧
      (∀ r ∈ (purgeDeletedOrgs now db).2.roles, r.orgId ≠ o.id) ∧
      (∀ m ∈ (purgeDeletedOrgs now db).2.members, m.orgId ≠ o.id) ∧
      (∀ x ∈ (purgeDeletedOrgs now db).2.invitations, x.orgId ≠ o.id) ∧
      (∀ c ∈ (purgeDeletedOrgs now db).2.invitationCodes, c.orgId ≠ o.id) ∧
      (∀ e ∈ (purgeDeletedOrgs now db).2.auditLogs, e.orgId ≠ some o.id)) ∧
    (∀ o ∈ db.orgs, orgPurgeEligible now o = false →
      o ∈ (purgeDeletedOrgs now db).2.orgs ∧
      (∀ r ∈ db.roles, r.orgId = o.id → r ∈ (purgeDeletedOrgs now db).2.roles) ∧
      (∀ m ∈ db.members, m.orgId = o.id → m ∈ (purgeDeletedOrgs now db).2.members) ∧
      (∀ x ∈ db.invitations, x.orgId = o.id → x ∈ (purgeDeletedOrgs now db).2.invitations) ∧
      (∀ c ∈ db.invitationCodes, c.orgId = o.id → c ∈ (purgeDeletedOrgs now db).2.invitationCodes) ∧
      (∀ e ∈ db.auditLogs, e.orgId = some o.id → e ∈ (purgeDeletedOrgs now db).2.auditLogs)) ∧
    purgeDeletedOrgs now (purgeDeletedOrgs now db).2 =
      (0, (purgeDeletedOrgs now db).2) := by
  have hbatch : (db.orgs.filter (orgPurgeEligible now)).take 50 =
      db.orgs.filter (orgPurgeEligible now) := List.take_of_length_le h50
  have hspec := purge_foldl_spec (db.orgs.filter (orgPurgeEligible now)) db
  obtain ⟨h1, h2, h3, h4, h5, h6, h7, h8, h9, h10⟩ := hspec
  have hres2 : (purgeDeletedOrgs now db).2 =
      (db.orgs.filter (orgPurgeEligible now)).foldl
        (fun acc o => purgeOrgOne acc o.id) db := by
    unfold purgeDeletedOrgs
    rw [hbatch]
  have hmemid : ∀ o ∈ db.orgs, orgPurgeEligible now o = true →
      o.id ∈ (db.orgs.filter (orgPurgeEligible now)).map Organization.id := by
    intro o ho he
    exact List.mem_map_of_mem _ (List.mem_filter.mpr ⟨ho, he⟩)
  refine ⟨?_, ?_, ?_, ?_⟩
  · unfold purgeDeletedOrgs
    rw [hbatch]
  · intro o ho he
    have hoid := hmemid o ho he
    rw [hres2]
    refine ⟨?_, ?_, ?_, ?_, ?_, ?_⟩
    · intro o' ho'
      rw [h1] at ho'
      have := (List.mem_filter.mp ho').2
      rw [List.all_eq_true] at this
      have := this o.id hoid
      intro hcon
      rw [hcon] at this
      simp at this
    · intro r hr
      rw [h2] at hr
      have := (List.mem_filter.mp hr).2
      rw [List.all_eq_true] at this
      have := this o.id hoid
      intro hcon
      rw [hcon] at this
      simp at this
    · intro m hm
      rw [h3] at hm
      have := (List.mem_filter.mp hm).2
      rw [List.all_eq_true] at this
      have := this o.id hoid
      intro hcon
      rw [hcon] at this
      simp at this
    · intro x hx
      rw [h4] at hx
      have := (List.mem_filter.mp hx).2
      rw [List.all_eq_true] at this
      have := this o.id hoid
      intro hcon
      rw [hcon] at this
      simp at this
    · intro c hc
      rw [h5] at hc
      have := (List.mem_filter.mp hc).2
      rw [List.all_eq_true] at this
      have := this o.id hoid
      intro hcon
      rw [hcon] at this
      simp at this
    · intro e heq
      rw [h6] at heq
      have := (List.mem_filter.mp heq).2
      rw [List.all_eq_true] at this
      have := this o.id hoid
      intro hcon
      rw [hcon] at this
      simp at this
  · intro o ho he
    have hall : ∀ oid,
        oid ∈ (db.orgs.filter (orgPurgeEligible now)).map Organization.id →
        o.id ≠ oid := by
      intro oid hoid hcon
      rw [List.mem_map] at hoid
      obtain ⟨o', ho', hoid'⟩ := hoid
      have ho'mem := (List.mem_filter.mp ho').1
      have ho'el := (List.mem_filter.mp ho').2
      have : o = o' :=
        List.inj_on_of_nodup_map hid ho ho'mem (by rw [hoid']; exact hcon)
      rw [this] at he
      rw [he] at ho'el
      cases ho'el
    rw [hres2]
    refine ⟨?_, ?_, ?_, ?_, ?_, ?_⟩
    · rw [h1]
      refine List.mem_filter.mpr ⟨ho, ?_⟩
      rw [List.all_eq_true]
      intro i hi
      simpa using hall i hi
    · intro r hr hro
      rw [h2]
      refine List.mem_filter.mpr ⟨hr, ?_⟩
      rw [List.all_eq_true]
      intro i hi
      rw [hro]
      simpa using hall i hi
    · intro m hm hmo
      rw [h3]
      refine List.mem_filter.mpr ⟨hm, ?_⟩
      rw [List.all_eq_true]
      intro i hi
      rw [hmo]
      simpa using hall i hi
    · intro x hx hxo
      rw [h4]
      refine List.mem_filter.mpr ⟨hx, ?_⟩
      rw [List.all_eq_true]
      intro i hi
      rw [hxo]
      simpa using hall i hi
    · intro c hc hco
      rw [h5]
      refine List.mem_filter.mpr ⟨hc, ?_⟩
      rw [List.all_eq_true]
      intro i hi
      rw [hco]
      simpa using hall i hi
    · intro e heq heo
      rw [h6]
      refine List.mem_filter.mpr ⟨heq, ?_⟩
      rw [List.all_eq_true]
      intro i hi
      rw [heo]
      simpa using hall i hi
  · have hnone : (purgeDeletedOrgs now db).2.orgs.filter (orgPurgeEligible now) = [] := by
      rw [List.filter_eq_nil_iff]
      intro o' ho'
      rw [hres2, h1] at ho'
      have homem := (List.mem_filter.mp ho').1
      have hoall := (List.mem_filter.mp ho').2
      intro hel
      rw [List.all_eq_true] at hoall
      have := hoall o'.id (hmemid o' homem hel)
      simp at this
    exact purgeDeletedOrgs_noop now _ hnone

/-- Finding by id after an id-preserving patch of the targeted id is
the patch of the original find. -/
theorem find?_id_map_patch (rid : Nat) (f : Role → Role)
    (hf : ∀ r, (f r).id = r.id) :
    ∀ l : List Role,
      (l.map (fun r => if r.id == rid then f r else r)).find?
          (fun r => r.id == rid) =
        (l.find? (fun r => r.id == rid)).map
          (fun r => if r.id == rid then f r else r) := by
  intro l
  induction l with
  | nil => rfl
  | cons x tl ih =>
    rw [List.map_cons]
    by_cases hx : (x.id == rid) = true
    · have hgx : ((if x.id == rid then f x else x).id == rid) = true := by
        rw [if_pos hx, hf]
        exact hx
      have e1 : ((if x.id == rid then f x else x) ::
          tl.map (fun r => if r.id == rid then f r else r)).find?
            (fun r => r.id == rid) = some (if x.id == rid then f x else x) :=
        List.find?_cons_of_pos _ hgx
      have e2 : (x :: tl).find? (fun r => r.id == rid) = some x :=
        List.find?_cons_of_pos _ hx
      rw [e1, e2]
      rfl
    · have hgx : ¬ ((if x.id == rid then f x else x).id == rid) = true := by
        rw [if_neg hx]
        exact hx
      have e1 : ((if x.id == rid then f x else x) ::
          tl.map (fun r => if r.id == rid then f r else r)).find?
            (fun r => r.id == rid) =
          (tl.map (fun r => if r.id == rid then f r else r)).find?
            (fun r => r.id == rid) :=
        List.find?_cons_of_neg _ (by simpa using hgx)
      have e2 : (x :: tl).find? (fun r => r.id == rid) =
          tl.find? (fun r => r.id == rid) :=
        List.find?_cons_of_neg _ (by simpa using hx)
      rw [e1, e2]
      exact ih

-- ============================================================
-- C1 (amended): authority floor on role creation and re-sorting
-- ============================================================

/-- C1 (amended): with `role:manage` held by an actor whose role is
`arole`, `createRole` succeeds only with a requested `sortOrder` that
is `>= arole.sortOrder`, and the created role carries exactly that
`sortOrder`; `updateRole` enforces the same floor whenever a new
`sortOrder` is provided, the patched role then carrying exactly the
provided value; but an `updateRole` call that provides no `sortOrder`
leaves the edited role's `sortOrder` unchanged — including when that
value is below the actor's own (the situation of the counterexample). -/
theorem role_sortOrder_floor
    (db : DB) (uid : String) (oid : Nat) (am : Member) (arole : Role)
    (hperm : requirePermission db oid uid "role:manage" = .ok (am, arole))
    (hfresh : ∀ r ∈ db.roles, r.id ≠ db.nextId) :
    (∀ nm ds ps so now rid db',
        createRole uid oid nm ds ps so now db = .ok (rid, db') →
        arole.sortOrder ≤ so ∧
        (roleById db' rid).map Role.sortOrder = some so) ∧
    (∀ rid nm ds ps so now db',
        updateRole uid oid rid nm ds ps (some so) now db = .ok ((), db') →
        arole.sortOrder ≤ so ∧
        (roleById db' rid).map Role.sortOrder = some so) ∧
    (∀ rid nm ds ps now db' r,
        roleById db rid = some r →
        updateRole uid oid rid nm ds ps none now db = .ok ((), db') →
        (roleById db' rid).map Role.sortOrder = some r.sortOrder) := by
  refine ⟨?_, ?_, ?_⟩
  · intro nm ds ps so now rid db' h
    unfold createRole at h
    rw [hperm] at h
    dsimp only at h
    by_cases h1 : so < arole.sortOrder
    · rw [if_pos h1] at h
      cases h
    · rw [if_neg h1] at h
      by_cases h2 : (getRoleByName db oid nm).isSome = true
      · rw [if_pos h2] at h
        cases h
      · rw [if_neg h2] at h
        dsimp only [writeAuditLog] at h
        injection h with hpair
        injection hpair with hrid hdb
        subst hrid
        subst hdb
        refine ⟨Int.not_lt.mp h1, ?_⟩
        unfold roleById
        dsimp only
        rw [List.find?_append]
        have hnone : db.roles.find? (fun r => r.id == db.nextId) = none := by
          rw [List.find?_eq_none]
          intro r hr
          simpa using hfresh r hr
        rw [hnone]
        simp
  · intro rid nm ds ps so now db' h
    unfold updateRole at h
    rw [hperm] at h
    dsimp only at h
    cases hrole : roleById db rid with
    | none => rw [hrole] at h; cases h
    | some role =>
      rw [hrole] at h
      dsimp only at h
      split at h
      · cases h
      · split at h
        · cases h
        · split at h
          · cases h
          · split at h
            · cases h
            · rename_i hb4
              dsimp only [writeAuditLog] at h
              injection h with hpair
              injection hpair with _ hdb
              subst hdb
              refine ⟨Int.not_lt.mp (by simpa using hb4), ?_⟩
              unfold roleById
              dsimp only
              rw [find?_id_map_patch rid
                (fun r => applyRoleUpdates r nm ds ps (some so)) (fun r => rfl)
                db.roles]
              have hfind2 : db.roles.find? (fun r => r.id == rid) = some role := hrole
              have hpr0 := List.find?_some hfind2
              have hpr : (role.id == rid) = true := hpr0
              rw [hfind2]
              dsimp only [Option.map]
              rw [if_pos hpr]
              rfl
  · intro rid nm ds ps now db' r hr h
    unfold updateRole at h
    rw [hperm] at h
    dsimp only at h
    rw [hr] at h
    dsimp only at h
    split at h
    · cases h
    · split at h
      · cases h
      · split at h
        · cases h
        · split at h
          · cases h
          · dsimp only [writeAuditLog] at h
            injection h with hpair
            injection hpair with _ hdb
            subst hdb
            unfold roleById
            dsimp only
            rw [find?_id_map_patch rid
              (fun x => applyRoleUpdates x nm ds ps none) (fun x => rfl)
              db.roles]
            have hfind2 : db.roles.find? (fun x => x.id == rid) = some r := hr
            have hpr0 := List.find?_some hfind2
            have hpr : (r.id == rid) = true := hpr0
            rw [hfind2]
            dsimp only [Option.map]
            rw [if_pos hpr]
            rfl

/-- Result state of the C1 witness `createRole` call. -/
def c1w1 : DB :=
  match createRole "carol" 1 "helpdesk" none ["org:read"] 12 100 baseDb with
  | .ok (_, d) => d
  | .error _ => baseDb

/-- Result state of the C1 witness `updateRole` call with a provided
`sortOrder`. -/
def c1w2 : DB :=
  match updateRole "carol" 1 5 none none none (some 11) 100 baseDb with
  | .ok (_, d) => d
  | .error _ => baseDb

/-- C1 witness: carol (`sortOrder 10`) creates a role at 12 and
re-sorts `billing` to 11; both floors hold, and the description-only
edit of the counterexample leaves `support` at `sortOrder 5`. -/
theorem role_sortOrder_floor_witness :
    ((10 : Int) ≤ 12 ∧ (roleById c1w1 30).map Role.sortOrder = some 12) ∧
    ((10 : Int) ≤ 11 ∧ (roleById c1w2 5).map Role.sortOrder = some 11) ∧
    (roleById c1db' 6).map Role.sortOrder = some 5 := by
  have h := role_sortOrder_floor baseDb "carol" 1
    ⟨11, 1, "carol", 3, 0, none⟩
    ⟨3, 1, "admin", none, adminPerms, true, 10⟩ rfl (by decide)
  exact ⟨h.1 "helpdesk" none ["org:read"] 12 100 30 c1w1 rfl,
    h.2.1 5 none none none 11 100 c1w2 rfl,
    h.2.2 6 none (some "Support desk") none 100 c1db'
      ⟨6, 1, "support", none, ["org:read"], false, 5⟩ rfl rfl⟩

-- ============================================================
-- C3 (amended): strict outranking on member management
-- ============================================================

/-- A successful strict-outranking check means a strictly smaller
`sortOrder`. -/
theorem canManageRole_lt {a b : Role} (h : ¬ (!canManageRole a b) = true) :
    a.sortOrder < b.sortOrder := by
  have hcm : canManageRole a b = true := by
    cases hc : canManageRole a b
    · rw [hc] at h
      exact absurd rfl h
    · rfl
  simpa [canManageRole] using hcm

/-- C3 (amended): with the actor holding role `arole` (with
`member:manage` resp. `member:remove`) and the target holding `trole`,
`updateMemberRole` succeeds only when the actor strictly outranks both
the target's current role and the *new* role
(`arole.sortOrder < trole.sortOrder` and
`arole.sortOrder < nrole.sortOrder` — equality of authority with the
new role is rejected, unlike the claim's `>=`), and `removeMember`
succeeds only when the actor strictly outranks the target. -/
theorem member_ops_require_strict_outrank
    (db : DB) (uid tuid : String) (oid rid : Nat) (now : Nat)
    (am tm : Member) (arole trole nrole : Role)
    (hperm1 : requirePermission db oid uid "member:manage" = .ok (am, arole))
    (hperm2 : requirePermission db oid uid "member:remove" = .ok (am, arole))
    (ht : requireMembership db oid tuid = .ok (tm, trole))
    (hr : roleById db rid = some nrole) :
    (∀ out, updateMemberRole uid oid tuid rid now db = .ok out →
        arole.sortOrder < trole.sortOrder ∧
        arole.sortOrder < nrole.sortOrder) ∧
    (∀ out, removeMember uid oid tuid now db = .ok out →
        arole.sortOrder < trole.sortOrder) := by
  constructor
  · intro out h
    unfold updateMemberRole at h
    rw [hperm1] at h
    dsimp only at h
    rw [ht] at h
    dsimp only at h
    rw [hr] at h
    dsimp only at h
    split at h
    · cases h
    · split at h
      · cases h
      · split at h
        · cases h
        · rename_i hcm1 hcm2
          exact ⟨canManageRole_lt hcm1, canManageRole_lt hcm2⟩
  · intro out h
    unfold removeMember at h
    rw [hperm2] at h
    dsimp only at h
    rw [ht] at h
    dsimp only at h
    split at h
    · cases h
    · split at h
      · cases h
      · rename_i hcm1 hne
        exact canManageRole_lt hcm1

/-- Result state of the C3 witness `updateMemberRole` call. -/
def c3w : DB :=
  match updateMemberRole "carol" 1 "dave" 5 100 baseDb with
  | .ok (_, d) => d
  | .error _ => baseDb

/-- Result state of the C3 witness `removeMember` call. -/
def c3rw : DB :=
  match removeMember "carol" 1 "dave" 100 baseDb with
  | .ok (_, d) => d
  | .error _ => baseDb

/-- C3 witness: carol (`sortOrder 10`) successfully moves dave
(`sortOrder 20`) to `billing` (`sortOrder 15`), and successfully
removes dave; both successes exhibit the strict inequalities. -/
theorem member_ops_require_strict_outrank_witness :
    ((10 : Int) < 20 ∧ (10 : Int) < 15) ∧ (10 : Int) < 20 := by
  have h := member_ops_require_strict_outrank baseDb "carol" "dave" 1 5 100
    ⟨11, 1, "carol", 3, 0, none⟩ ⟨12, 1, "dave", 4, 0, none⟩
    ⟨3, 1, "admin", none, adminPerms, true, 10⟩
    ⟨4, 1, "member", none, ["org:read", "member:read", "role:read", "invitation:read"], true, 20⟩
    ⟨5, 1, "billing", none, ["org:read"], false, 15⟩
    rfl rfl rfl rfl
  exact ⟨h.1 ((), c3w) rfl, h.2 ((), c3rw) rfl⟩

-- ============================================================
-- C2 (amended): infrastructure
-- ============================================================

/-- A negated boolean negation is an affirmation. -/
theorem not_bang_eq_true {b : Bool} (h : ¬ (!b) = true) : b = true := by
  cases b
  · exact absurd rfl h
  · rfl

/-- `roleById` only reads the role table. -/
theorem roleById_of_roles_eq {db db' : DB} (h : db'.roles = db.roles)
    (rid : Nat) : roleById db' rid = roleById db rid := by
  unfold roleById
  rw [h]

/-- `isTopAuthority` only reads the role table. -/
theorem isTopAuthority_of_roles_eq {db db' : DB} (h : db'.roles = db.roles)
    (oid : Nat) (r : Role) :
    isTopAuthority db' oid r = isTopAuthority db oid r := by
  unfold isTopAuthority
  rw [h]

/-- The membership invariant, in propositional form. -/
theorem ownerInvariantHolds_iff (db : DB) :
    ownerInvariantHolds db = true ↔
      ∀ o ∈ db.orgs, o.status ≠ OrgStatus.deleted →
        (∀ m ∈ db.members, m.orgId ≠ o.id) ∨
        ∃ m ∈ db.members, m.orgId = o.id ∧
          ∃ r, roleById db m.roleId = some r ∧
            isTopAuthority db o.id r = true := by
  unfold ownerInvariantHolds
  rw [List.all_eq_true]
  apply forall_congr'
  intro o
  apply imp_congr_right
  intro _
  rw [Bool.or_eq_true, Bool.or_eq_true]
  constructor
  · rintro ((h1 | h2) | h3)
    · intro hne
      exact absurd (eq_of_beq h1) hne
    · intro _
      left
      rw [List.all_eq_true] at h2
      intro m hm
      simpa using h2 m hm
    · intro _
      right
      rw [List.any_eq_true] at h3
      obtain ⟨m, hm, hp⟩ := h3
      rw [Bool.and_eq_true] at hp
      refine ⟨m, hm, eq_of_beq hp.1, ?_⟩
      have hp2 := hp.2
      cases hrole : roleById db m.roleId with
      | none => rw [hrole] at hp2; cases hp2
      | some r =>
        rw [hrole] at hp2
        exact ⟨r, rfl, hp2⟩
  · intro h
    by_cases hdel : o.status = OrgStatus.deleted
    · exact Or.inl (Or.inl (beq_iff_eq.mpr hdel))
    · rcases h hdel with h2 | h3
      · refine Or.inl (Or.inr ?_)
        rw [List.all_eq_true]
        intro m hm
        simpa using h2 m hm
      · refine Or.inr ?_
        rw [List.any_eq_true]
        obtain ⟨m, hm, hmo, r, hr, htop⟩ := h3
        refine ⟨m, hm, ?_⟩
        rw [Bool.and_eq_true]
        refine ⟨beq_iff_eq.mpr hmo, ?_⟩
        rw [hr]
        exact htop

/-- Top authority, in propositional form. -/
theorem isTopAuthority_iff (db : DB) (oid : Nat) (r : Role) :
    isTopAuthority db oid r = true ↔
      r.orgId = oid ∧
      ∀ r' ∈ db.roles, r'.orgId = oid → r.sortOrder ≤ r'.sortOrder := by
  unfold isTopAuthority
  rw [Bool.and_eq_true, List.all_eq_true]
  apply and_congr
  · exact beq_iff_eq
  · apply forall_congr'
    intro r'
    apply imp_congr_right
    intro _
    rw [Bool.or_eq_true]
    constructor
    · rintro (h1 | h2)
      · intro hco
        exact absurd hco (by simpa using h1)
      · intro _
        exact of_decide_eq_true h2
    · intro h
      by_cases hro : r'.orgId = oid
      · exact Or.inr (decide_eq_true (h hro))
      · exact Or.inl (by simpa using hro)

/-- In a list with pairwise-distinct keys, the element bearing a key is
found by key lookup. -/
theorem find?_key_of_nodup {α : Type} (f : α → Nat) :
    ∀ l : List α, (l.map f).Nodup → ∀ x ∈ l,
      l.find? (fun y => f y == f x) = some x := by
  intro l
  induction l with
  | nil => intro _ x hx; cases hx
  | cons a tl ih =>
    intro hnd x hx
    rw [List.map_cons, List.nodup_cons] at hnd
    rcases List.mem_cons.mp hx with rfl | hxtl
    · exact List.find?_cons_of_pos _ (by simp)
    · have hne : ¬ (f a == f x) = true := by
        intro hcon
        exact hnd.1 (by rw [eq_of_beq hcon]; exact List.mem_map_of_mem f hxtl)
      have e1 : (a :: tl).find? (fun y => f y == f x) =
          tl.find? (fun y => f y == f x) := List.find?_cons_of_neg _ hne
      rw [e1]
      exact ih hnd.2 x hxtl

/-- A list of pairwise-distinct keys whose elements are all one value
has at most one element. -/
theorem length_le_one_of_all_eq {α : Type} (f : α → Nat) (m : α) :
    ∀ l : List α, (l.map f).Nodup → (∀ x ∈ l, x = m) → l.length ≤ 1 := by
  intro l
  match l with
  | [] => intro _ _; simp
  | [x] => intro _ _; simp
  | x :: y :: tl =>
    intro hnd hall
    exfalso
    rw [List.map_cons, List.map_cons, List.nodup_cons] at hnd
    apply hnd.1
    rw [hall x (by simp), hall y (by simp)]
    exact List.mem_cons_self _ _

/-- A list of length at least two with pairwise-distinct keys contains
an element different from any given one. -/
theorem exists_ne_of_two_le_length {α : Type} (f : α → Nat) (m : α) :
    ∀ l : List α, (l.map f).Nodup → 2 ≤ l.length → ∃ x ∈ l, x ≠ m := by
  intro l
  match l with
  | [] => intro _ h; cases h
  | [x] => intro _ h; exact absurd h (by simp)
  | a :: b :: tl =>
    intro hnd _
    have hab : a ≠ b := by
      intro hcon
      rw [List.map_cons, List.map_cons, List.nodup_cons] at hnd
      apply hnd.1
      rw [hcon]
      exact List.mem_cons_self _ _
    by_cases ham : a = m
    · exact ⟨b, by simp, by rw [← ham]; exact fun hc => hab hc.symm⟩
    · exact ⟨a, by simp, ham⟩

/-- Unpacking a successful `getMembership`. -/
theorem getMembership_facts {db : DB} {oid : Nat} {u : String} {m : Member}
    {r : Role} (h : getMembership db oid u = some (m, r)) :
    m ∈ db.members ∧ m.orgId = oid ∧ m.userId = u ∧
      roleById db m.roleId = some r := by
  unfold getMembership at h
  cases hf : db.members.find? (fun x => x.orgId == oid && x.userId == u) with
  | none => rw [hf] at h; cases h
  | some m0 =>
    rw [hf] at h
    dsimp only at h
    cases hr : roleById db m0.roleId with
    | none => rw [hr] at h; cases h
    | some r0 =>
      rw [hr] at h
      injection h with hpair
      injection hpair with hm0 hr0
      subst hm0
      subst hr0
      have hp := List.find?_some hf
      rw [Bool.and_eq_true] at hp
      exact ⟨List.mem_of_find?_eq_some hf, eq_of_beq hp.1, eq_of_beq hp.2, hr⟩

/-- Unpacking a successful `roleById`. -/
theorem roleById_facts {db : DB} {rid : Nat} {r : Role}
    (h : roleById db rid = some r) : r ∈ db.roles ∧ r.id = rid := by
  have h' : db.roles.find? (fun x => x.id == rid) = some r := h
  have hp := List.find?_some h'
  exact ⟨List.mem_of_find?_eq_some h', eq_of_beq hp⟩

/-- Unpacking a successful `getRoleByName`. -/
theorem getRoleByName_facts {db : DB} {oid : Nat} {nm : String} {r : Role}
    (h : getRoleByName db oid nm = some r) :
    r ∈ db.roles ∧ r.orgId = oid ∧ r.name = nm := by
  have h' : db.roles.find? (fun x => x.orgId == oid && x.name == nm) = some r := h
  have hp := List.find?_some h'
  rw [Bool.and_eq_true] at hp
  exact ⟨List.mem_of_find?_eq_some h', eq_of_beq hp.1, eq_of_beq hp.2⟩

/-- Clearing the active org never touches orgs, roles or members. -/
theorem clearActiveOrg_proj (db : DB) (u : String) (oid : Nat) :
    (clearActiveOrg db u oid).orgs = db.orgs ∧
    (clearActiveOrg db u oid).roles = db.roles ∧
    (clearActiveOrg db u oid).members = db.members := by
  unfold clearActiveOrg
  cases getProfile db u with
  | none => exact ⟨rfl, rfl, rfl⟩
  | some p =>
    dsimp only
    split
    · exact ⟨rfl, rfl, rfl⟩
    · exact ⟨rfl, rfl, rfl⟩

/-- A successful permission check names the actor's actual membership. -/
theorem requirePermission_ok_membership {db : DB} {oid : Nat} {u perm : String}
    {am : Member} {arole : Role}
    (h : requirePermission db oid u perm = .ok (am, arole)) :
    getMembership db oid u = some (am, arole) := by
  unfold requirePermission requireMembership at h
  cases hm : getMembership db oid u with
  | none => rw [hm] at h; cases h
  | some pr =>
    rw [hm] at h
    obtain ⟨m, r⟩ := pr
    dsimp only at h
    split at h
    · injection h with hpair
      injection hpair with h1 h2
      rw [h1, h2]
    · cases h

/-- A successful membership requirement names the actual membership. -/
theorem requireMembership_ok {db : DB} {oid : Nat} {u : String}
    {m : Member} {r : Role}
    (h : requireMembership db oid u = .ok (m, r)) :
    getMembership db oid u = some (m, r) := by
  unfold requireMembership at h
  cases hm : getMembership db oid u with
  | none => rw [hm] at h; cases h
  | some pr =>
    rw [hm] at h
    injection h with hpair
    rw [hpair]

/-- Success shape of `leaveOrg`: the guard failed and the only change
to orgs/roles/members is the deletion of the leaver's row. -/
theorem leaveOrg_shape {u : String} {oid now : Nat} {db db' : DB}
    (h : leaveOrg u oid now db = .ok ((), db')) :
    ∃ m r, getMembership db oid u = some (m, r) ∧
      ¬ ((r.name == "owner") = true ∧
         (db.members.filter (fun x =>
           x.orgId == oid && x.roleId == m.roleId)).length ≤ 1) ∧
      db'.orgs = db.orgs ∧ db'.roles = db.roles ∧
      db'.members = db.members.filter (fun x => x.id != m.id) := by
  unfold leaveOrg at h
  cases hm : requireMembership db oid u with
  | error e => rw [hm] at h; cases h
  | ok mr =>
    rw [hm] at h
    obtain ⟨m, r⟩ := mr
    dsimp only at h
    split at h
    · cases h
    · rename_i hguard
      injection h with hpair
      injection hpair with _ hdb
      subst hdb
      obtain ⟨e1, e2, e3⟩ := clearActiveOrg_proj
        { db with members := db.members.filter (fun x => x.id != m.id) } u oid
      refine ⟨m, r, requireMembership_ok hm, ?_, ?_, ?_, ?_⟩
      · intro ⟨hname, hlen⟩
        apply hguard
        rw [Bool.and_eq_true]
        exact ⟨hname, decide_eq_true hlen⟩
      · exact e1
      · exact e2
      · exact e3

/-- Success shape of `removeMember`. -/
theorem removeMember_shape {u tu : String} {oid now : Nat} {db db' : DB}
    (h : removeMember u oid tu now db = .ok ((), db')) :
    ∃ am arole tm trole,
      getMembership db oid u = some (am, arole) ∧
      getMembership db oid tu = some (tm, trole) ∧
      canManageRole arole trole = true ∧
      db'.orgs = db.orgs ∧ db'.roles = db.roles ∧
      db'.members = db.members.filter (fun x => x.id != tm.id) := by
  unfold removeMember at h
  cases hp : requirePermission db oid u "member:remove" with
  | error e => rw [hp] at h; cases h
  | ok pr =>
    rw [hp] at h
    obtain ⟨am, arole⟩ := pr
    dsimp only at h
    cases ht : requireMembership db oid tu with
    | error e => rw [ht] at h; cases h
    | ok tr =>
      rw [ht] at h
      obtain ⟨tm, trole⟩ := tr
      dsimp only at h
      split at h
      · cases h
      · split at h
        · cases h
        · rename_i hcm hne
          injection h with hpair
          injection hpair with _ hdb
          subst hdb
          exact ⟨am, arole, tm, trole, requirePermission_ok_membership hp,
            requireMembership_ok ht, not_bang_eq_true hcm, rfl, rfl, rfl⟩

/-- Success shape of `updateMemberRole`. -/
theorem updateMemberRole_shape {u tu : String} {oid rid now : Nat}
    {db db' : DB} (h : updateMemberRole u oid tu rid now db = .ok ((), db')) :
    ∃ am arole tm trole nrole,
      getMembership db oid u = some (am, arole) ∧
      getMembership db oid tu = some (tm, trole) ∧
      roleById db rid = some nrole ∧
      canManageRole arole trole = true ∧
      canManageRole arole nrole = true ∧
      db'.orgs = db.orgs ∧ db'.roles = db.roles ∧
      db'.members = db.members.map (fun m =>
        if m.id == tm.id then { m with roleId := rid } else m) := by
  unfold updateMemberRole at h
  cases hp : requirePermission db oid u "member:manage" with
  | error e => rw [hp] at h; cases h
  | ok pr =>
    rw [hp] at h
    obtain ⟨am, arole⟩ := pr
    dsimp only at h
    cases ht : requireMembership db oid tu with
    | error e => rw [ht] at h; cases h
    | ok tr =>
      rw [ht] at h
      obtain ⟨tm, trole⟩ := tr
      dsimp only at h
      cases hr : roleById db rid with
      | none => rw [hr] at h; cases h
      | some nrole =>
        rw [hr] at h
        dsimp only at h
        split at h
        · cases h
        · split at h
          · cases h
          · split at h
            · cases h
            · rename_i hcm1 hcm2
              injection h with hpair
              injection hpair with _ hdb
              subst hdb
              exact ⟨am, arole, tm, trole, nrole,
                requirePermission_ok_membership hp, requireMembership_ok ht,
                rfl, not_bang_eq_true hcm1, not_bang_eq_true hcm2,
                rfl, rfl, rfl⟩

/-- Success shape of `transferOwnership`. -/
theorem transferOwnership_shape {a nu : String} {oid now : Nat} {db db' : DB}
    (h : transferOwnership a oid nu now db = .ok ((), db')) :
    ∃ ownerRole adminRole nm nr,
      getRoleByName db oid "owner" = some ownerRole ∧
      getRoleByName db oid "admin" = some adminRole ∧
      getMembership { db with members := db.members.map (fun m =>
          if m.orgId == oid && m.roleId == ownerRole.id then
            { m with roleId := adminRole.id }
          else m) } oid nu = some (nm, nr) ∧
      db'.orgs = db.orgs ∧ db'.roles = db.roles ∧
      db'.members = (db.members.map (fun m =>
          if m.orgId == oid && m.roleId == ownerRole.id then
            { m with roleId := adminRole.id }
          else m)).map (fun m =>
          if m.id == nm.id then { m with roleId := ownerRole.id } else m) := by
  unfold transferOwnership at h
  cases hadm : requireAdmin db a with
  | error e => rw [hadm] at h; cases h
  | ok pa =>
    rw [hadm] at h
    dsimp only at h
    cases hor : getRoleByName db oid "owner" with
    | none => rw [hor] at h; cases h
    | some ownerRole =>
      rw [hor] at h
      dsimp only at h
      cases har : getRoleByName db oid "admin" with
      | none => rw [har] at h; cases h
      | some adminRole =>
        rw [har] at h
        dsimp only at h
        cases hnm : getMembership { db with members := db.members.map (fun m =>
            if m.orgId == oid && m.roleId == ownerRole.id then
              { m with roleId := adminRole.id }
            else m) } oid nu with
        | none => rw [hnm] at h; cases h
        | some pr =>
          rw [hnm] at h
          obtain ⟨nm, nr⟩ := pr
          dsimp only [writeAuditLog] at h
          injection h with hpair
          injection hpair with _ hdb
          subst hdb
          exact ⟨ownerRole, adminRole, nm, nr, rfl, rfl, hnm, rfl, rfl, rfl⟩

-- ============================================================
-- C8 witness fixture
-- ============================================================

/-- Purge fixture: one live org (1) and one org (2) soft-deleted at
time 1000 with a role, a membership, an invitation code and an audit
entry. -/
def c8db : DB := {
  orgs := [⟨1, "Acme", "acme", "alice", .active, none⟩,
           ⟨2, "Dead", "dead", "zoe", .deleted, some 1000⟩]
  roles := [⟨3, 2, "owner", none, ["*"], true, 0⟩,
            ⟨4, 1, "owner", none, ["*"], true, 0⟩]
  members := [⟨5, 2, "zoe", 3, 0, none⟩]
  invitations := []
  invitationCodes := [⟨7, 2, "JOINME"⟩]
  profiles := []
  devices := []
  sessions := []
  auditLogs := [⟨some 2, "zoe", none, "org.created", "organization", some 2, 0⟩]
  nextId := 10 }

/-- Purge time eight days after org 2's soft deletion. -/
def c8now : Nat := 1000 + RETENTION_MS + 86400000

/-- C8 witness: at `T + 8 days` the purge deletes exactly the one
eligible org, leaves the live org, wipes every row of org 2, and a
second invocation is a no-op. -/
theorem purgeDeletedOrgs_witness :
    (purgeDeletedOrgs c8now c8db).1 = 1 ∧
    (∀ r ∈ (purgeDeletedOrgs c8now c8db).2.roles, r.orgId ≠ 2) ∧
    (⟨1, "Acme", "acme", "alice", .active, none⟩ : Organization) ∈
      (purgeDeletedOrgs c8now c8db).2.orgs ∧
    purgeDeletedOrgs c8now (purgeDeletedOrgs c8now c8db).2 =
      (0, (purgeDeletedOrgs c8now c8db).2) := by
  have h := purgeDeletedOrgs_spec c8now c8db (by decide) (by decide)
  refine ⟨?_, ?_, ?_, h.2.2.2⟩
  · rw [h.1]
    decide
  · exact fun r hr =>
      (h.2.1 ⟨2, "Dead", "dead", "zoe", .deleted, some 1000⟩
        (by decide) (by decide)).2.1 r hr
  · exact (h.2.2.1 ⟨1, "Acme", "acme", "alice", .active, none⟩
      (by decide) (by decide)).1

-- ============================================================
-- C4: invitation round-trip
-- ============================================================

/-- Success shape of `createInvitation`: the new pending invitation is
appended (storing the token hash), one audit entry is appended, and the
invited role belongs to the org. -/
theorem createInvitation_shape {inviter : String} {oid rid : Nat}
    {em ph : Option String} {tok : String} {exp now1 : Nat} {iid : Nat}
    {db db' : DB}
    (h : createInvitation inviter oid em ph rid tok exp now1 db =
      .ok (iid, db')) :
    iid = db.nextId ∧
    (∃ role, roleById db rid = some role ∧ role.orgId = oid) ∧
    db'.invitations = db.invitations ++
      [⟨db.nextId, oid, em, ph, rid, inviter, .pending, tok, exp, none, none⟩] ∧
    db'.orgs = db.orgs ∧ db'.roles = db.roles ∧ db'.members = db.members ∧
    db'.profiles = db.profiles ∧ db'.nextId = db.nextId + 1 ∧
    db'.auditLogs = db.auditLogs ++
      [⟨some oid, inviter, none, "invitation.created", "invitation",
        some db.nextId, now1⟩] := by
  unfold createInvitation at h
  cases hp : requirePermission db oid inviter "member:invite" with
  | error e => rw [hp] at h; cases h
  | ok pr =>
    rw [hp] at h
    dsimp only at h
    cases ho : requireOrg db oid with
    | error e => rw [ho] at h; cases h
    | ok o =>
      rw [ho] at h
      dsimp only at h
      split at h
      · cases h
      · cases hrole : roleById db rid with
        | none => rw [hrole] at h; cases h
        | some role =>
          rw [hrole] at h
          dsimp only at h
          split at h
          · cases h
          · rename_i hro
            split at h
            · cases h
            · split at h
              · cases h
              · dsimp only [writeAuditLog] at h
                injection h with hpair
                injection hpair with hiid hdb
                subst hiid
                subst hdb
                refine ⟨rfl, ⟨role, rfl, ?_⟩, rfl, rfl, rfl, rfl, rfl,
                  rfl, rfl⟩
                have := not_bang_eq_true hro
                exact eq_of_beq this

/-- Token lookup over an append finds a freshly appended invitation. -/
theorem find?_token_append {l : List Invitation} {tok : String}
    (inv : Invitation) (hfresh : ∀ i ∈ l, i.token ≠ tok)
    (htok : inv.token = tok) :
    (l ++ [inv]).find? (fun i => i.token == tok) = some inv := by
  rw [List.find?_append]
  have hnone : l.find? (fun i => i.token == tok) = none := by
    rw [List.find?_eq_none]
    intro i hi
    simpa using hfresh i hi
  rw [hnone]
  show ([inv] : List Invitation).find? (fun i => i.token == tok) = some inv
  exact List.find?_cons_of_pos _ (beq_iff_eq.mpr htok)

/-- Token lookup after a token-preserving patch of an appended fresh
invitation finds the patched invitation. -/
theorem find?_token_map_append (l : List Invitation) (tok : String)
    (inv : Invitation) (g : Invitation → Invitation)
    (hg : ∀ i, (g i).token = i.token)
    (hfresh : ∀ i ∈ l, i.token ≠ tok) (htok : inv.token = tok) :
    ((l ++ [inv]).map g).find? (fun i => i.token == tok) = some (g inv) := by
  rw [List.map_append]
  rw [List.find?_append]
  have hnone : (l.map g).find? (fun i => i.token == tok) = none := by
    rw [List.find?_eq_none]
    intro x hx
    rw [List.mem_map] at hx
    obtain ⟨i, hi, rfl⟩ := hx
    simpa [hg i] using hfresh i hi
  rw [hnone]
  show (([inv] : List Invitation).map g).find? (fun i => i.token == tok) =
    some (g inv)
  refine List.find?_cons_of_pos _ ?_
  rw [beq_iff_eq]
  show (g inv).token = tok
  rw [hg inv, htok]

/-- C4: after a successful `createInvitation` with a fresh token hash,
an `acceptInvitation` with that token hash by a user whose stored
profile email/phone matches the target, while the invitation is still
pending and unexpired, the invited role still exists (guaranteed here
by the un-touched state right after creation) and the user is not a
member, succeeds, inserts exactly one new membership and appends
exactly the two audit entries `invitation.accepted` and `member.added`;
a second accept with the same token hash then fails with the
`InvalidState` error `Invitation is accepted`. -/
theorem invitation_roundtrip
    (db db' : DB) (inviter u : String) (oid rid iid : Nat)
    (em ph : Option String) (tok : String) (exp now1 now2 : Nat)
    (hfresh : ∀ i ∈ db.invitations, i.token ≠ tok)
    (hcreate : createInvitation inviter oid em ph rid tok exp now1 db =
      .ok (iid, db'))
    (p : Profile) (hp : getProfile db' u = some p)
    (hem : ∀ e, em = some e → p.email = some e)
    (hph : ∀ x, ph = some x → p.phone = some x)
    (hnm : getMembership db' oid u = none)
    (hexp : ¬ (exp < now2)) :
    ∃ mid db'',
      acceptInvitation u tok now2 db' = .ok ((oid, mid), db'') ∧
      db''.members.length = db'.members.length + 1 ∧
      db''.auditLogs = db'.auditLogs ++
        [⟨some oid, u, none, "invitation.accepted", "invitation", some iid, now2⟩,
         ⟨some oid, u, none, "member.added", "member", some mid, now2⟩] ∧
      (∀ now3, acceptInvitation u tok now3 db'' =
        .error (.invalidState "Invitation is accepted")) := by
  obtain ⟨hiid, ⟨role, hrole, hro⟩, hinvs, ho, hroles, hmems, hprofs, hnid,
    haud⟩ := createInvitation_shape hcreate
  subst hiid
  have hfind : db'.invitations.find? (fun i => i.token == tok) =
      some ⟨db.nextId, oid, em, ph, rid, inviter, .pending, tok, exp,
        none, none⟩ := by
    rw [hinvs]
    exact find?_token_append _ hfresh rfl
  have hrole' : roleById db' rid = some role := by
    rw [roleById_of_roles_eq hroles]
    exact hrole
  have hcem : (match em with
      | some e => (getProfile db' u).bind Profile.email != some e
      | none => false) = false := by
    cases em with
    | none => rfl
    | some e =>
      rw [hp]
      dsimp only [Option.bind]
      rw [hem e rfl]
      simp
  have hcph : (match ph with
      | some x => (getProfile db' u).bind Profile.phone != some x
      | none => false) = false := by
    cases ph with
    | none => rfl
    | some x =>
      rw [hp]
      dsimp only [Option.bind]
      rw [hph x rfl]
      simp
  refine ⟨db'.nextId,
    ({ db' with
      members := db'.members ++ [⟨db'.nextId, oid, u, rid, now2, some inviter⟩]
      invitations := db'.invitations.map (fun i =>
        if i.id == db.nextId then
          { i with
            status := .accepted
            acceptedBy := some u
            acceptedAt := some now2 }
        else i)
      auditLogs := (db'.auditLogs ++
        [⟨some oid, u, none, "invitation.accepted", "invitation",
          some db.nextId, now2⟩]) ++
        [⟨some oid, u, none, "member.added", "member", some db'.nextId, now2⟩]
      nextId := db'.nextId + 1 } : DB), ?_, ?_, ?_, ?_⟩
  · unfold acceptInvitation
    rw [hfind]
    dsimp only
    rw [if_neg (by decide : ¬ ((InvStatus.pending != InvStatus.pending) = true))]
    rw [if_neg hexp]
    rw [if_neg (by rw [hcem]; decide)]
    rw [if_neg (by rw [hcph]; decide)]
    rw [hrole']
    dsimp only
    rw [if_neg (by simp [hro])]
    rw [if_neg (by rw [hnm]; decide)]
    rfl
  · dsimp only [writeAuditLog]
    rw [List.length_append]
    rfl
  · dsimp only [writeAuditLog]
    rw [List.append_assoc]
    rfl
  · intro now3
    have hpatched : (fun i : Invitation =>
        if i.id == db.nextId then
          { i with
            status := .accepted
            acceptedBy := some u
            acceptedAt := some now2 }
        else i)
        (⟨db.nextId, oid, em, ph, rid, inviter, .pending, tok, exp,
          none, none⟩ : Invitation) =
        ⟨db.nextId, oid, em, ph, rid, inviter, .accepted, tok, exp,
          some u, some now2⟩ := by
      dsimp only
      rw [if_pos (by rw [beq_iff_eq])]
    have hfind2 : ((db.invitations ++
        [(⟨db.nextId, oid, em, ph, rid, inviter, .pending, tok, exp,
          none, none⟩ : Invitation)]).map (fun i : Invitation =>
            if i.id == db.nextId then
              { i with
                status := .accepted
                acceptedBy := some u
                acceptedAt := some now2 }
            else i)).find? (fun i => i.token == tok) =
        some (⟨db.nextId, oid, em, ph, rid, inviter, .accepted, tok, exp,
          some u, some now2⟩ : Invitation) := by
      rw [find?_token_map_append db.invitations tok _ _
        (fun i => by by_cases hc : (i.id == db.nextId) = true
                     · rw [if_pos hc]
                     · rw [if_neg hc])
        hfresh rfl]
      exact congrArg some hpatched
    unfold acceptInvitation
    dsimp only [writeAuditLog]
    rw [hinvs]
    rw [hfind2]
    dsimp only
    rw [if_pos (by decide : (InvStatus.accepted != InvStatus.pending) = true)]
    rfl

/-- Post-create state for the C4 witness: alice invites bob@example.com
to org 1 with the member role (id 4), token hash "tok", expiry 1000. -/
def c4db' : DB :=
  match createInvitation "alice" 1 (some "bob@example.com") none 4 "tok"
      1000 500 baseDb with
  | .ok (_, d) => d
  | .error _ => baseDb

/-- C4 witness: the concrete invite/accept round trip in the fixture. -/
theorem invitation_roundtrip_witness :
    ∃ mid db'',
      acceptInvitation "bob" "tok" 900 c4db' = .ok ((1, mid), db'') ∧
      db''.members.length = c4db'.members.length + 1 ∧
      db''.auditLogs = c4db'.auditLogs ++
        [⟨some 1, "bob", none, "invitation.accepted", "invitation",
          some 30, 900⟩,
         ⟨some 1, "bob", none, "member.added", "member", some mid, 900⟩] ∧
      (∀ now3, acceptInvitation "bob" "tok" now3 db'' =
        .error (.invalidState "Invitation is accepted")) :=
  invitation_roundtrip baseDb c4db' "alice" "bob" 1 4 30
    (some "bob@example.com") none "tok" 1000 500 900
    (by intro i hi; simp [baseDb] at hi)
    (by rfl)
    ⟨24, "bob", some "bob@example.com", none, none, none, false, false, none⟩
    (by rfl)
    (by intro e he; injection he with h; rw [← h])
    (by intro x hx; exact Option.noConfusion hx)
    (by rfl)
    (by decide)

end ConvexOrgs
